import Mathlib

/-!
Shallow embedding of the mruby/c virtual-machine core of this repository.

Sources embedded:
  * `src/.mrubyc/src/vm.c`              (opcode handlers, dispatcher, VM open/close)
  * `src/components/mrubyc/mrubyc_src/value.c`  (comparator, dup, release)
  * `src/.mrubyc/src/vm_config.h`       (configuration constants)

Headers and collaborator modules (`value.h`, `opcode.h`, `class.c`, `symbol.c`,
`global.c`, `alloc.c`, `c_array.c`, `c_string.c`, `c_range.c`, `c_hash.c`) are
not part of the repository snapshot; wherever a definition depends on them it
is modelled from the specification and marked `Modelled from the spec:` in its
doc comment.

Machine integers are modelled as `Nat`/`Int` with explicit `% 2^w` where the C
code manipulates 32-bit words.  C `double` payloads are idealised as exact
rationals (`Rat`).  Allocation failure is modelled by an explicit oracle
stream threaded through the VM state.
-/

namespace MrubyC

/-- Modelled from the spec: the value-tag enumeration (`value.h` is absent).
The spec fixes the total order
`EMPTY < NIL < FALSE < TRUE < FIXNUM < FLOAT < SYMBOL < CLASS < OBJECT < PROC
< ARRAY < STRING < RANGE < HASH` with `EMPTY` the zero element. -/
inductive MTag where
  | empty | nil | ffalse | ttrue | fixnum | float | symbol
  | cls | object | proc | array | string | range | hash
deriving DecidableEq

/-- Numeric value of a tag, following the spec's total order with `EMPTY = 0`. -/
def ttVal : MTag → Int
  | .empty  => 0
  | .nil    => 1
  | .ffalse => 2
  | .ttrue  => 3
  | .fixnum => 4
  | .float  => 5
  | .symbol => 6
  | .cls    => 7
  | .object => 8
  | .proc   => 9
  | .array  => 10
  | .string => 11
  | .range  => 12
  | .hash   => 13

/-- The tags treated as reference-counted heap references by `mrbc_dup` and
`mrbc_dec_ref_counter` in `value.c` (OBJECT, PROC, ARRAY, STRING, RANGE, HASH;
note that CLASS values are not reference counted). -/
def isRefTag : MTag → Bool
  | .object | .proc | .array | .string | .range | .hash => true
  | _ => false

/-- A tagged value: one tag plus payload fields.  The C payload is a union;
here each variant gets its own field and a C assignment to one union member is
modelled as a record update of that field only (the others keep their bytes,
as in C).  `handle` is the heap-cell index carried by reference tags and the
class id carried by CLASS values; `sval` models the raw string pointer of
string literals held in IREP pools. -/
structure MrbcValue where
  tt : MTag := .empty
  i : Int := 0
  d : Rat := 0
  handle : Nat := 0
  sval : String := ""
deriving DecidableEq

/-- The all-zero value, as produced by `memset(.., 0, ..)` on a register slot
(tag `EMPTY` is the zero tag). -/
def zeroVal : MrbcValue := {}

/-- `mrbc_nil_value()` of `value.h`: a freshly zero-initialised NIL value. -/
def mrbc_nil_value : MrbcValue := { tt := .nil }

/-- An IREP: immutable per-method record (spec §3.3, `vm.h` absent).  `code`
holds the already-decoded 32-bit instruction words (the loader's
`bin_to_uint32` of `load.c` is abstracted away), `syms` the symbol-name list
accessed by `mrbc_get_irep_symbol`, `pools` the literal pool, `reps` the child
IREPs. -/
inductive IRep where
  | mk (nregs nlocals : Nat) (code : List Nat) (pools : List MrbcValue)
       (syms : List String) (reps : List IRep)

def IRep.nregs : IRep → Nat
  | .mk n _ _ _ _ _ => n

def IRep.nlocals : IRep → Nat
  | .mk _ n _ _ _ _ => n

def IRep.code : IRep → List Nat
  | .mk _ _ c _ _ _ => c

def IRep.pools : IRep → List MrbcValue
  | .mk _ _ _ p _ _ => p

def IRep.syms : IRep → List String
  | .mk _ _ _ _ s _ => s

def IRep.reps : IRep → List IRep
  | .mk _ _ _ _ _ r => r

/-- The empty IREP, used as a total-function default. -/
def defIRep : IRep := .mk 0 0 [] [] [] []

/-- Heap-cell bodies for the built-in heap types (spec §3.2/§3.4; the type
modules `c_array.c`, `c_string.c`, `c_range.c`, `c_hash.c`, `c_class.c` are
absent, so bodies are modelled from the spec).  `hproc` carries the
native-flag, a native-function id, the proc's IREP and its method symbol.
`hfree` marks a cell reclaimed by the destructor. -/
inductive HBody where
  | harray (data : List MrbcValue)
  | hstring (s : String)
  | hrange (first last : MrbcValue) (excl : Nat)
  | hhash (data : List MrbcValue)
  | hinstance (cls : Nat) (ivars : List (Int × MrbcValue))
  | hproc (c_func : Bool) (funcId : Nat) (irep : IRep) (sym_id : Int)
  | hfree

/-- A heap cell: reference-count header (spec §3.2) plus a type-specific
body.  `vm_id` is the per-VM ownership tag. -/
structure HeapCell where
  ref_count : Nat
  vm_id : Nat
  body : HBody

def defaultCell : HeapCell := { ref_count := 0, vm_id := 0, body := .hfree }

/-- The list of contained values a destructor must recursively release when a
cell dies (spec §3.2: "the type-specific destructor ... recursively releases
contained values").  PROC cells are freed with `mrbc_raw_free` (no recursive
release), STRING cells own no values. -/
def cellContents : HBody → List MrbcValue
  | .harray data => data
  | .hhash data => data
  | .hrange first last _ => [first, last]
  | .hinstance _ ivars => ivars.map Prod.snd
  | _ => []

/-- One level of `mrbc_dec_ref_counter` of `value.c`, parameterised by the
recursive release used by the destructor on contained values: on a reference
tag, decrement the cell's counter; on reaching zero invoke the type-specific
destructor, which marks the cell free and releases its contents in order
(destructor bodies modelled from the spec, see `cellContents`). -/
def decRefStep (rec : List HeapCell → MrbcValue → List HeapCell)
    (heap : List HeapCell) (v : MrbcValue) : List HeapCell :=
  if isRefTag v.tt then
    match heap.get? v.handle with
    | none => heap
    | some c =>
      if c.ref_count - 1 = 0 then
        let heap' := heap.set v.handle
          { c with ref_count := 0, body := .hfree }
        (cellContents c.body).foldl rec heap'
      else
        heap.set v.handle { c with ref_count := c.ref_count - 1 }
  else heap

/-- `mrbc_dec_ref_counter`, fuelled: `fuel` bounds the destructor-cascade
depth; on acyclic heaps a fuel of `heap.length + 1` reproduces the unbounded
C recursion. -/
def decRef : Nat → List HeapCell → MrbcValue → List HeapCell
  | 0 => fun heap _ => heap
  | Nat.succ fuel => decRefStep (decRef fuel)

/-- Release a list of contained values in order (destructor helper). -/
def decRefList (fuel : Nat) (heap : List HeapCell) (vs : List MrbcValue) :
    List HeapCell :=
  vs.foldl (decRef fuel) heap

/-- `mrbc_dup` of `value.c`: increment the reference counter of the cell a
reference-tagged value points to; immediates are untouched. -/
def dupHeap (heap : List HeapCell) (v : MrbcValue) : List HeapCell :=
  if isRefTag v.tt then
    match heap.get? v.handle with
    | none => heap
    | some c => heap.set v.handle { c with ref_count := c.ref_count + 1 }
  else heap

/-- `mrbc_release` applied to a value's heap effect (the value's own
`tt := EMPTY` write is done at the slot by `releaseAt`).  The fuel
`heap.length + 1` suffices on acyclic heaps. -/
def releaseVal (heap : List HeapCell) (v : MrbcValue) : List HeapCell :=
  decRef (heap.length + 1) heap v

/-! ## Configuration (`vm_config.h`) -/

/-- `MAX_VM_COUNT` of `vm_config.h` ("maximum number of VMs", default 5). -/
def MAX_VM_COUNT : Nat := 5

/-- `MAX_REGS_SIZE` of `vm_config.h` (size of the register file, default 100). -/
def MAX_REGS_SIZE : Nat := 100

/-- `MAX_SYMBOLS_COUNT` of `vm_config.h` (symbol-table capacity, default 300). -/
def MAX_SYMBOLS_COUNT : Nat := 300

/-! ## Instruction decoding

Modelled from the spec (`opcode.h` is absent): "Opcode in low 7 bits. Operand
layouts: `A:9 B:9 C:7` (bits 7..31), `A:9 Bx:16`, `A:9 sBx:16` (biased by
`0x8000`), `Ax:25`"; operand `A` occupies the top bits as in the family's
reference implementation. -/

def GET_OPCODE (c : Nat) : Nat := c % 128

def GETARG_A (c : Nat) : Nat := (c >>> 23) % 512

def GETARG_B (c : Nat) : Nat := (c >>> 14) % 512

def GETARG_C (c : Nat) : Nat := (c >>> 7) % 128

def GETARG_Bx (c : Nat) : Nat := (c >>> 7) % 65536

def GETARG_sBx (c : Nat) : Int := (GETARG_Bx c : Int) - 32768

def GETARG_Ax (c : Nat) : Nat := (c >>> 7) % 33554432

def GETARG_Bz (c : Nat) : Nat := (c >>> 9) % 16384

/-- Assemble an `A:9 B:9 C:7` instruction word. -/
def mkABC (op a b c : Nat) : Nat := (a % 512) <<< 23 + (b % 512) <<< 14 + (c % 128) <<< 7 + op % 128

/-- Assemble an `A:9 Bx:16` instruction word. -/
def mkABx (op a bx : Nat) : Nat := (a % 512) <<< 23 + (bx % 65536) <<< 7 + op % 128

/-- Assemble an `A:9 sBx:16` instruction word (bias `0x8000`). -/
def mkAsBx (op a : Nat) (sbx : Int) : Nat := mkABx op a (sbx + 32768).toNat

/-! Opcode numbers.  Modelled from the spec: "The opcode numbers follow the
standard set in the family's reference implementation" (`opcode.h` absent);
`OP_ABORT` takes the slot after `OP_STOP`. -/

def OP_NOP : Nat := 0
def OP_MOVE : Nat := 1
def OP_LOADL : Nat := 2
def OP_LOADI : Nat := 3
def OP_LOADSYM : Nat := 4
def OP_LOADNIL : Nat := 5
def OP_LOADSELF : Nat := 6
def OP_LOADT : Nat := 7
def OP_LOADF : Nat := 8
def OP_GETGLOBAL : Nat := 9
def OP_SETGLOBAL : Nat := 10
def OP_GETIV : Nat := 13
def OP_SETIV : Nat := 14
def OP_GETCONST : Nat := 17
def OP_SETCONST : Nat := 18
def OP_GETMCNST : Nat := 19
def OP_GETUPVAR : Nat := 21
def OP_SETUPVAR : Nat := 22
def OP_JMP : Nat := 23
def OP_JMPIF : Nat := 24
def OP_JMPNOT : Nat := 25
def OP_SEND : Nat := 32
def OP_SENDB : Nat := 33
def OP_CALL : Nat := 35
def OP_SUPER : Nat := 36
def OP_ARGARY : Nat := 37
def OP_ENTER : Nat := 38
def OP_RETURN : Nat := 41
def OP_BLKPUSH : Nat := 43
def OP_ADD : Nat := 44
def OP_ADDI : Nat := 45
def OP_SUB : Nat := 46
def OP_SUBI : Nat := 47
def OP_MUL : Nat := 48
def OP_DIV : Nat := 49
def OP_EQ : Nat := 50
def OP_LT : Nat := 51
def OP_LE : Nat := 52
def OP_GT : Nat := 53
def OP_GE : Nat := 54
def OP_ARRAY : Nat := 55
def OP_STRING : Nat := 61
def OP_STRCAT : Nat := 62
def OP_HASH : Nat := 63
def OP_LAMBDA : Nat := 64
def OP_RANGE : Nat := 65
def OP_CLASS : Nat := 67
def OP_EXEC : Nat := 69
def OP_METHOD : Nat := 70
def OP_SCLASS : Nat := 71
def OP_TCLASS : Nat := 72
def OP_STOP : Nat := 74
def OP_ABORT : Nat := 75

/-- `OP_R_NORMAL` return-kind operand of `OP_RETURN`. -/
def OP_R_NORMAL : Nat := 0

/-- `OP_R_BREAK` return-kind operand of `OP_RETURN`. -/
def OP_R_BREAK : Nat := 1

/-! ## Classes, procs, call-info frames -/

/-- A class record (spec §3.4; `class.c`/`vm.h` absent): name symbol, nullable
superclass (class id into the registry) and the head of the method list.  As
in the source the method list nodes ARE proc heap cells, so `procs` is a list
of heap handles. -/
structure MClass where
  sym_id : Int
  super : Option Nat
  procs : List Nat
deriving DecidableEq

def defClass : MClass := { sym_id := 0, super := none, procs := [] }

/-- A call-info frame, exactly the fields saved by `mrbc_push_callinfo` in
`vm.c`: caller's register base (an offset into the flat register file),
caller's IREP and instruction pointer, called-method symbol, argument count
and target class.  The `prev` link is modelled by list order. -/
structure CallInfo where
  current_regs : Nat
  pc_irep : IRep
  pc : Nat
  mid : Int
  n_args : Nat
  target_class : Nat

def defCI : CallInfo :=
  { current_regs := 0, pc_irep := defIRep, pc := 0, mid := 0, n_args := 0,
    target_class := 0 }

/-! ## VM state

One record holding the VM structure of `vm.h` (absent, fields taken from
their uses in `vm.c`) together with the process-wide collaborator state the
handlers touch: the class registry, symbol table, global/constant tables, the
console output stream, and the allocation oracle (spec §4.A: "every path that
can allocate must propagate a null result" — each allocation consumes one
oracle entry; `false` means the allocator returned null). -/

structure VMState where
  regs : List MrbcValue
  current_regs : Nat
  pc : Nat
  pc_irep : IRep
  irep : IRep
  callinfo_tail : List CallInfo
  target_class : Nat
  flag_preemption : Bool
  error_code : Int
  vm_id : Nat
  heap : List HeapCell
  registry : List MClass
  symtab : List String
  globals : List (Int × MrbcValue)
  consts : List (Int × MrbcValue)
  out : List String
  allocOk : List Bool

/-- Consume one allocation-oracle entry; an exhausted oracle means success. -/
def allocTake (st : VMState) : Bool × VMState :=
  match st.allocOk with
  | [] => (true, st)
  | b :: rest => (b, { st with allocOk := rest })

/-- Read an absolute slot of the register file (C reads out of the flat
`vm->regs` array; out-of-range reads are given the zero value). -/
def readSlot (st : VMState) (idx : Nat) : MrbcValue :=
  st.regs.getD idx zeroVal

/-- Write an absolute slot of the register file. -/
def writeSlot (st : VMState) (idx : Nat) (v : MrbcValue) : VMState :=
  { st with regs := st.regs.set idx v }

/-- `mrbc_release(&slot)`: decrement the slot value's reference counter (with
destructor cascade) and set the slot's tag to `EMPTY`, leaving the payload
bytes in place, exactly as `value.c` does. -/
def releaseAt (st : VMState) (idx : Nat) : VMState :=
  let v := readSlot st idx
  let st' := { st with heap := releaseVal st.heap v }
  writeSlot st' idx { v with tt := .empty }

/-- `mrbc_dup(&slot)`: bump the reference counter of the slot's cell. -/
def dupAt (st : VMState) (idx : Nat) : VMState :=
  { st with heap := dupHeap st.heap (readSlot st idx) }

/-! ## Symbols, globals, constants (collaborators) -/

/-- `mrbc_get_irep_symbol` of `vm.c`: fetch the `n`-th symbol name of an
IREP's symbol section (the length-prefixed byte layout is abstracted into a
list; an out-of-range index yields the null string as the C returns 0). -/
def mrbc_get_irep_symbol (syms : List String) (n : Nat) : String :=
  syms.getD n ""

/-- Modelled from the spec: `intern(name) → id` of `symbol.c` (absent).  Ids
are positive (`0` is reserved for "no symbol"), the table is bounded by
`MAX_SYMBOLS_COUNT` and symbols are never reclaimed. -/
def str_to_symid (tbl : List String) (s : String) : Int × List String :=
  match tbl.findIdx? (fun t => t == s) with
  | some i => ((i : Int) + 1, tbl)
  | none =>
    if tbl.length < MAX_SYMBOLS_COUNT then ((tbl.length : Int) + 1, tbl ++ [s])
    else (0, tbl)

/-- Intern a name in the VM state's symbol table. -/
def internSym (st : VMState) (s : String) : Int × VMState :=
  let p := str_to_symid st.symtab s
  (p.1, { st with symtab := p.2 })

/-- Modelled from the spec: `name_of(id) → name` of `symbol.c` (absent). -/
def symid_to_str (tbl : List String) (sid : Int) : String :=
  tbl.getD (sid - 1).toNat ""

/-- Look up an entry of a symbol-keyed table (`global.c` absent; spec §3.7:
a name→value mapping keyed by symbol id). -/
def assocGet (g : List (Int × MrbcValue)) (sid : Int) : Option MrbcValue :=
  (g.find? (fun p => p.1 == sid)).map Prod.snd

/-- Store an entry in a symbol-keyed table, replacing an existing binding. -/
def assocSet (g : List (Int × MrbcValue)) (sid : Int) (v : MrbcValue) :
    List (Int × MrbcValue) :=
  match g with
  | [] => [(sid, v)]
  | (k, w) :: rest =>
    if k = sid then (k, v) :: rest else (k, w) :: assocSet rest sid v

/-! ## Class registry and method resolution -/

/-- Modelled from the spec: the root Object class occupies registry index 0
(`static.c` absent). -/
def mrbc_class_object : Nat := 0

/-- Modelled from the spec: fixed registry indices of the built-in classes of
the immediate tags (`static.c` absent). -/
def builtinClassId : MTag → Nat
  | .nil => 1
  | .ffalse => 2
  | .ttrue => 3
  | .fixnum => 4
  | .float => 5
  | .symbol => 6
  | .array => 7
  | .string => 8
  | .range => 9
  | .hash => 10
  | _ => 0

/-- Modelled from the spec: `find_class_by_object` of `class.c` (absent) —
the class of a receiver: an OBJECT's own class field, a CLASS value itself,
or the built-in class of the immediate tag. -/
def find_class_by_object (st : VMState) (v : MrbcValue) : Nat :=
  match v.tt with
  | .object =>
    match (st.heap.getD v.handle defaultCell).body with
    | .hinstance c _ => c
    | _ => mrbc_class_object
  | .cls => v.handle
  | t => builtinClassId t

/-- The method symbol stored on a proc heap cell (0 for non-proc cells). -/
def procSymId (heap : List HeapCell) (h : Nat) : Int :=
  match (heap.getD h defaultCell).body with
  | .hproc _ _ _ s => s
  | _ => 0

/-- Scan one class's method list for a proc with the given symbol. -/
def findProcIn (heap : List HeapCell) (procs : List Nat) (sid : Int) :
    Option Nat :=
  procs.find? (fun h => procSymId heap h == sid)

/-- Walk a superclass chain looking for a method symbol; returns the class id
where the method was found together with the proc handle.  This is the loop
inlined in `op_super` and (modelled from the spec) the `find_method` walk of
`class.c`.  `fuel` bounds the walk; `registry.length + 1` suffices on acyclic
chains. -/
def findMethodRec (heap : List HeapCell) (reg : List MClass) :
    Nat → Option Nat → Int → Option (Nat × Nat)
  | 0, _, _ => none
  | _, none, _ => none
  | Nat.succ fuel, some c, sid =>
    let cl := reg.getD c defClass
    match findProcIn heap cl.procs sid with
    | some h => some (c, h)
    | none => findMethodRec heap reg fuel cl.super sid

/-- Modelled from the spec: `find_method` of `class.c` (absent) — resolve a
method symbol against the receiver's class, walking the superclass chain;
returns the proc's heap handle. -/
def find_method (st : VMState) (recv : MrbcValue) (sid : Int) : Option Nat :=
  (findMethodRec st.heap st.registry (st.registry.length + 1)
    (some (find_class_by_object st recv)) sid).map Prod.snd

/-- Replace a heap cell's body. -/
def setBody (heap : List HeapCell) (h : Nat) (b : HBody) : List HeapCell :=
  match heap.get? h with
  | none => heap
  | some c => heap.set h { c with body := b }

/-- `regs[ra].instance->cls = cls` of `op_super`: overwrite an instance
cell's class field in place. -/
def setInstanceCls (heap : List HeapCell) (h : Nat) (cid : Nat) :
    List HeapCell :=
  match (heap.getD h defaultCell).body with
  | .hinstance _ ivars => setBody heap h (.hinstance cid ivars)
  | _ => heap

/-! ## Call-info stack (`mrbc_push_callinfo` / `mrbc_pop_callinfo`) -/

/-- `mrbc_push_callinfo` of `vm.c`: allocate a frame (one oracle entry; on
allocator failure the function silently returns without pushing) recording
the caller's base, IREP, pc, method symbol, argument count and target
class. -/
def mrbc_push_callinfo (st : VMState) (mid : Int) (n_args : Nat) : VMState :=
  let p := allocTake st
  if p.1 then
    { p.2 with callinfo_tail :=
      { current_regs := p.2.current_regs, pc_irep := p.2.pc_irep,
        pc := p.2.pc, mid := mid, n_args := n_args,
        target_class := p.2.target_class } :: p.2.callinfo_tail }
  else p.2

/-- `mrbc_pop_callinfo` of `vm.c`: pop one frame and restore the caller's
base, IREP, pc and target class. -/
def mrbc_pop_callinfo (st : VMState) : VMState :=
  let ci := st.callinfo_tail.headD defCI
  { st with
    callinfo_tail := st.callinfo_tail.tail,
    current_regs := ci.current_regs, pc_irep := ci.pc_irep, pc := ci.pc,
    target_class := ci.target_class }

/-! ## The value comparator (`value.c`, `mrbc_compare`) -/

/-- The `CMP_FLOAT` tail of `mrbc_compare`:
`-1 + (d1 == d2) + (d1 > d2)*2`. -/
def cmpFloat (d1 d2 : Rat) : Int :=
  -1 + (if d1 = d2 then 1 else 0) + (if d1 > d2 then 1 else 0) * 2

/-- `mrbc_compare` of `value.c`.  The four container comparators it delegates
to (`mrbc_array_compare`, `mrbc_string_compare`, `mrbc_range_compare`,
`mrbc_hash_compare`) live in modules absent from the snapshot and are taken
as parameters.  C `double` arithmetic is idealised as exact rationals. -/
def mrbc_compare (acmp scmp rcmp hcmp : MrbcValue → MrbcValue → Int)
    (v1 v2 : MrbcValue) : Int :=
  if v1.tt ≠ v2.tt then
    -- but Numeric?
    if v1.tt = .fixnum ∧ v2.tt = .float then cmpFloat (v1.i : Rat) v2.d
    else if v1.tt = .float ∧ v2.tt = .fixnum then cmpFloat v1.d (v2.i : Rat)
    -- leak Empty?
    else if (v1.tt = .empty ∧ v2.tt = .nil) ∨ (v1.tt = .nil ∧ v2.tt = .empty)
      then 0
    -- other case
    else ttVal v1.tt - ttVal v2.tt
  else
    match v1.tt with
    | .nil | .ffalse | .ttrue => 0
    | .fixnum | .symbol => v1.i - v2.i
    | .float => cmpFloat v1.d v2.d
    | .cls | .object | .proc =>
      -1 + (if v1.handle = v2.handle then 1 else 0)
         + (if v1.handle > v2.handle then 1 else 0) * 2
    | .array => acmp v1 v2
    | .string => scmp v1 v2
    | .range => rcmp v1 v2
    | .hash => hcmp v1 v2
    | _ => 1

/-- The element list of an array cell (empty for anything else). -/
def arrData (heap : List HeapCell) (v : MrbcValue) : List MrbcValue :=
  match (heap.getD v.handle defaultCell).body with
  | .harray data => data
  | _ => []

/-- The element list of a hash cell. -/
def hashData (heap : List HeapCell) (v : MrbcValue) : List MrbcValue :=
  match (heap.getD v.handle defaultCell).body with
  | .hhash data => data
  | _ => []

/-- The text of a string cell. -/
def strData (heap : List HeapCell) (v : MrbcValue) : String :=
  match (heap.getD v.handle defaultCell).body with
  | .hstring s => s
  | _ => ""

/-- The first bound of a range cell. -/
def rangeFirst (heap : List HeapCell) (v : MrbcValue) : MrbcValue :=
  match (heap.getD v.handle defaultCell).body with
  | .hrange f _ _ => f
  | _ => zeroVal

/-- The last bound of a range cell. -/
def rangeLast (heap : List HeapCell) (v : MrbcValue) : MrbcValue :=
  match (heap.getD v.handle defaultCell).body with
  | .hrange _ l _ => l
  | _ => zeroVal

/-- String comparison (`strcmp` order), Modelled from the spec: delegated
string comparator of `c_string.c` (absent). -/
def cmpStr (s1 s2 : String) : Int :=
  if s1 = s2 then 0 else if s1 < s2 then -1 else 1

/-- Elementwise list comparison with length tie-break, parameterised by the
element comparator (Modelled from the spec: the delegated array/hash
comparators of the absent type modules). -/
def cmpListWith (rec : MrbcValue → MrbcValue → Int)
    (as bs : List MrbcValue) : Int :=
  let r := (as.zip bs).foldl (fun r p => if r = 0 then rec p.1 p.2 else r) 0
  if r = 0 then (as.length : Int) - bs.length else r

/-- The fully instantiated comparator used by `op_eq`: `mrbc_compare` with
its delegated container comparators Modelled from the spec ("Arrays, strings,
ranges, hashes delegate to type-specific comparators"): elementwise with
length tie-break for arrays and hashes, bound-wise for ranges.  `fuel` bounds
the nesting depth. -/
def cmpFueled : Nat → List HeapCell → MrbcValue → MrbcValue → Int
  | 0 => fun _ _ _ => 0
  | Nat.succ fuel => fun heap =>
    mrbc_compare
      (fun a b => cmpListWith (cmpFueled fuel heap)
        (arrData heap a) (arrData heap b))
      (fun a b => cmpStr (strData heap a) (strData heap b))
      (fun a b =>
        let r := cmpFueled fuel heap (rangeFirst heap a) (rangeFirst heap b)
        if r = 0 then cmpFueled fuel heap (rangeLast heap a) (rangeLast heap b)
        else r)
      (fun a b => cmpListWith (cmpFueled fuel heap)
        (hashData heap a) (hashData heap b))

/-! ## Heap-type constructors (collaborators, Modelled from the spec) -/

/-- Modelled from the spec: `mrbc_array_new` of `c_array.c` (absent) —
allocate a fresh array cell with reference count 1 owned by this VM, or
return `none` when the allocator is exhausted. -/
def mrbc_array_new (st : VMState) (size : Nat) : Option Nat × VMState :=
  let p := allocTake st
  if p.1 then
    (some p.2.heap.length,
     { p.2 with heap := p.2.heap ++
       [{ ref_count := 1, vm_id := p.2.vm_id,
          body := .harray (List.replicate size zeroVal) }] })
  else (none, p.2)

/-- Modelled from the spec: `mrbc_hash_new` of `c_hash.c` (absent) — a fresh
hash cell (flat key/value list) with reference count 1. -/
def mrbc_hash_new (st : VMState) (size : Nat) : Option Nat × VMState :=
  let p := allocTake st
  if p.1 then
    (some p.2.heap.length,
     { p.2 with heap := p.2.heap ++
       [{ ref_count := 1, vm_id := p.2.vm_id,
          body := .hhash (List.replicate (size * 2) zeroVal) }] })
  else (none, p.2)

/-- Modelled from the spec: `mrbc_string_new` of `c_string.c` (absent) — a
fresh mutable string cell with reference count 1. -/
def mrbc_string_new (st : VMState) (s : String) : Option Nat × VMState :=
  let p := allocTake st
  if p.1 then
    (some p.2.heap.length,
     { p.2 with heap := p.2.heap ++
       [{ ref_count := 1, vm_id := p.2.vm_id, body := .hstring s }] })
  else (none, p.2)

/-- Modelled from the spec: `mrbc_range_new` of `c_range.c` (absent) — a
fresh range cell over the two (already duplicated) operand values. -/
def mrbc_range_new (st : VMState) (first last : MrbcValue) (excl : Nat) :
    Option Nat × VMState :=
  let p := allocTake st
  if p.1 then
    (some p.2.heap.length,
     { p.2 with heap := p.2.heap ++
       [{ ref_count := 1, vm_id := p.2.vm_id,
          body := .hrange first last excl }] })
  else (none, p.2)

/-- Modelled from the spec: `mrbc_rproc_alloc` of `class.c` (absent) — a
fresh proc cell with reference count 1 (the caller fills in `c_func` and the
IREP). -/
def mrbc_rproc_alloc (st : VMState) : Option Nat × VMState :=
  let p := allocTake st
  if p.1 then
    (some p.2.heap.length,
     { p.2 with heap := p.2.heap ++
       [{ ref_count := 1, vm_id := p.2.vm_id,
          body := .hproc false 0 defIRep 0 }] })
  else (none, p.2)

/-- Modelled from the spec: `mrbc_define_class` of `class.c` (absent) —
return the class registered under this name, creating it with the given
superclass if it does not exist yet. -/
def mrbc_define_class (st : VMState) (name : String) (superc : Nat) :
    Nat × VMState :=
  let p := internSym st name
  let sid := p.1
  let st := p.2
  match st.registry.findIdx? (fun c => c.sym_id == sid) with
  | some i => (i, st)
  | none =>
    (st.registry.length,
     { st with registry := st.registry ++
       [{ sym_id := sid, super := some superc, procs := [] }] })

/-- Modelled from the spec: `mrbc_instance_getiv` of `c_class.c` (absent) —
read an instance variable of the OBJECT in `regs[0]`, duplicating the stored
value; missing keys and non-objects yield nil. -/
def mrbc_instance_getiv (st : VMState) (obj : MrbcValue) (sid : Int) :
    MrbcValue × VMState :=
  match (st.heap.getD obj.handle defaultCell).body with
  | .hinstance _ ivars =>
    match ivars.find? (fun q => q.1 == sid) with
    | some q => (q.2, { st with heap := dupHeap st.heap q.2 })
    | none => (mrbc_nil_value, st)
  | _ => (mrbc_nil_value, st)

/-- Modelled from the spec: `mrbc_instance_setiv` of `c_class.c` (absent) —
store an instance variable on the OBJECT in `regs[0]`, duplicating the new
value and releasing a previously stored one. -/
def mrbc_instance_setiv (st : VMState) (obj : MrbcValue) (sid : Int)
    (v : MrbcValue) : VMState :=
  match (st.heap.getD obj.handle defaultCell).body with
  | .hinstance c ivars =>
    let st := { st with heap := dupHeap st.heap v }
    match ivars.find? (fun q => q.1 == sid) with
    | some q =>
      let st := { st with heap := releaseVal st.heap q.2 }
      let b : HBody := .hinstance c (assocSet ivars sid v)
      { st with heap := setBody st.heap obj.handle b }
    | none =>
      let b : HBody := .hinstance c (ivars ++ [(sid, v)])
      { st with heap := setBody st.heap obj.handle b }
  | _ => st

/-- Modelled from the spec: `mrbc_string_add` of `c_string.c` (absent) —
a fresh string holding the concatenation of the two operand strings; on
allocator exhaustion the total model returns nil. -/
def mrbc_string_add (st : VMState) (v1 v2 : MrbcValue) :
    MrbcValue × VMState :=
  let p := mrbc_string_new st (strData st.heap v1 ++ strData st.heap v2)
  match p.1 with
  | some h => ({ tt := .string, handle := h }, p.2)
  | none => (mrbc_nil_value, p.2)

/-- Set the owner vm id of a heap cell (`mrbc_set_vm_id`). -/
def setCellVmId (heap : List HeapCell) (h : Nat) (id : Nat) :
    List HeapCell :=
  match heap.get? h with
  | none => heap
  | some c => heap.set h { c with vm_id := id }

/-- Overwrite the method symbol stored on a proc cell. -/
def setProcSym (heap : List HeapCell) (h : Nat) (sid : Int) :
    List HeapCell :=
  match (heap.getD h defaultCell).body with
  | .hproc cf fid ir _ => setBody heap h (.hproc cf fid ir sid)
  | _ => heap

/-- The duplicate-unchaining walk of `op_method`: remove the first handle on
the (old) method list whose proc carries the given symbol, returning the
pruned list and the removed handle. -/
def removeFirstProc (heap : List HeapCell) (sid : Int) :
    List Nat → List Nat × Option Nat
  | [] => ([], none)
  | h :: rest =>
    if procSymId heap h = sid then (rest, some h)
    else
      let q := removeFirstProc heap sid rest
      (h :: q.1, q.2)

/-! ## Natives -/

/-- The native-method collaborator (spec §6, native ABI): a native function
receives the VM state, the absolute register-file index of this call's
`R(0)` and the argument count, and returns the updated state. -/
def NativeTable := Nat → VMState → Nat → Nat → VMState

/-- Modelled from the spec: the native-table id reserved for the builtin
`c_proc_call` (the C source compares the raw function pointer). -/
def c_proc_call_id : Nat := 0

/-- A native table in which every native is the identity (used by concrete
executions that never reach a native method). -/
def trivialNatives : NativeTable := fun _ st _ _ => st

/-! ## Small handler helpers -/

/-- Truthiness: `tt > MRBC_TT_FALSE` (spec §3.1). -/
def truthy (t : MTag) : Bool := ttVal t > ttVal .ffalse

/-- Release the absolute slots `lo, lo+1, ..., hi` in order (the
`while( release_reg <= bidx )` loops of `op_send` / `op_super`). -/
def releaseRange (st : VMState) (lo hi : Nat) : VMState :=
  (List.range' lo (hi + 1 - lo)).foldl releaseAt st

/-- Release the window slots `base+i` for `i = from, ..., n-1` (the
`for( i = 1; i < nregs; i++ )` loop of `op_return`). -/
def releaseLoop (st : VMState) (base i n : Nat) : VMState :=
  (List.range' i (n - i)).foldl (fun s j => releaseAt s (base + j)) st

/-- The BREAK unwind loop of `op_return`: starting from the tail, free
frames while a `prev` frame exists and the register base still equals the
tail frame's base; the first frame violating the condition is kept (it is
popped and restored from by the caller). -/
def breakDrop (top : Nat) : List CallInfo → List CallInfo
  | [] => []
  | [ci] => [ci]
  | ci :: rest =>
    if ci.current_regs = top then breakDrop top rest else ci :: rest

/-- `console_printf`: append a line to the output stream. -/
def emit (st : VMState) (msg : String) : VMState :=
  { st with out := st.out ++ [msg] }

/-- `not_supported()` of `vm.c`. -/
def not_supported (st : VMState) : VMState :=
  emit st "Not supported!\n"

/-- Two-digit lower-case hex rendering of an opcode (`%02x`). -/
def hex2 (n : Nat) : String :=
  let ds := Nat.toDigits 16 n
  String.mk (if ds.length < 2 then '0' :: ds else ds)

/-! ## Opcode handlers (`vm.c`, in source order)

Each handler receives the state and the fetched code word and returns the
new state together with the C return value (`0` to continue, `-1` ENOMEM /
stop).  The C `regs` parameter is `vm->current_regs` captured at dispatch
time, modelled by reading `st.current_regs` once at handler entry. -/

/-- `OP_NOP`. -/
def op_nop (st : VMState) (_code : Nat) : VMState × Int := (st, 0)

/-- `OP_MOVE`: `R(A) := R(B)` — release, dup, copy. -/
def op_move (st : VMState) (code : Nat) : VMState × Int :=
  let ra := GETARG_A code
  let rb := GETARG_B code
  let base := st.current_regs
  let st := releaseAt st (base + ra)
  let st := dupAt st (base + rb)
  (writeSlot st (base + ra) (readSlot st (base + rb)), 0)

/-- `OP_LOADL`: `R(A) := Pool(Bx)` — shallow copy of the pool object. -/
def op_loadl (st : VMState) (code : Nat) : VMState × Int :=
  let ra := GETARG_A code
  let rb := GETARG_Bx code
  let base := st.current_regs
  let st := releaseAt st (base + ra)
  (writeSlot st (base + ra) (st.pc_irep.pools.getD rb zeroVal), 0)

/-- `OP_LOADI`: `R(A) := sBx`. -/
def op_loadi (st : VMState) (code : Nat) : VMState × Int :=
  let ra := GETARG_A code
  let base := st.current_regs
  let st := releaseAt st (base + ra)
  let v := readSlot st (base + ra)
  (writeSlot st (base + ra) { v with tt := .fixnum, i := GETARG_sBx code }, 0)

/-- `OP_LOADSYM`: `R(A) := Syms(Bx)`. -/
def op_loadsym (st : VMState) (code : Nat) : VMState × Int :=
  let ra := GETARG_A code
  let rb := GETARG_Bx code
  let name := mrbc_get_irep_symbol st.pc_irep.syms rb
  let p := internSym st name
  let st := releaseAt p.2 (st.current_regs + ra)
  let v := readSlot st (st.current_regs + ra)
  (writeSlot st (st.current_regs + ra) { v with tt := .symbol, i := p.1 }, 0)

/-- `OP_LOADNIL`: `R(A) := nil`. -/
def op_loadnil (st : VMState) (code : Nat) : VMState × Int :=
  let ra := GETARG_A code
  let base := st.current_regs
  let st := releaseAt st (base + ra)
  let v := readSlot st (base + ra)
  (writeSlot st (base + ra) { v with tt := .nil }, 0)

/-- `OP_LOADSELF`: `R(A) := R(0)` (duplicated). -/
def op_loadself (st : VMState) (code : Nat) : VMState × Int :=
  let ra := GETARG_A code
  let base := st.current_regs
  let st := releaseAt st (base + ra)
  let st := dupAt st (base + 0)
  (writeSlot st (base + ra) (readSlot st (base + 0)), 0)

/-- `OP_LOADT`: `R(A) := true`. -/
def op_loadt (st : VMState) (code : Nat) : VMState × Int :=
  let ra := GETARG_A code
  let base := st.current_regs
  let st := releaseAt st (base + ra)
  let v := readSlot st (base + ra)
  (writeSlot st (base + ra) { v with tt := .ttrue }, 0)

/-- `OP_LOADF`: `R(A) := false`. -/
def op_loadf (st : VMState) (code : Nat) : VMState × Int :=
  let ra := GETARG_A code
  let base := st.current_regs
  let st := releaseAt st (base + ra)
  let v := readSlot st (base + ra)
  (writeSlot st (base + ra) { v with tt := .ffalse }, 0)

/-- `OP_GETGLOBAL`: `R(A) := getglobal(Syms(Bx))` (nil when unset). -/
def op_getglobal (st : VMState) (code : Nat) : VMState × Int :=
  let ra := GETARG_A code
  let rb := GETARG_Bx code
  let name := mrbc_get_irep_symbol st.pc_irep.syms rb
  let p := internSym st name
  let st := releaseAt p.2 (st.current_regs + ra)
  match assocGet st.globals p.1 with
  | none => (writeSlot st (st.current_regs + ra) mrbc_nil_value, 0)
  | some v =>
    let st := { st with heap := dupHeap st.heap v }
    (writeSlot st (st.current_regs + ra) v, 0)

/-- `OP_SETGLOBAL`: `setglobal(Syms(Bx), R(A))` (duplicating). -/
def op_setglobal (st : VMState) (code : Nat) : VMState × Int :=
  let ra := GETARG_A code
  let rb := GETARG_Bx code
  let name := mrbc_get_irep_symbol st.pc_irep.syms rb
  let p := internSym st name
  let st := dupAt p.2 (st.current_regs + ra)
  ({ st with globals :=
      assocSet st.globals p.1 (readSlot st (st.current_regs + ra)) }, 0)

/-- `OP_GETIV`: `R(A) := ivget(Syms(Bx))` — the stored symbol carries a
leading `@` which is skipped before interning. -/
def op_getiv (st : VMState) (code : Nat) : VMState × Int :=
  let ra := GETARG_A code
  let rb := GETARG_Bx code
  let name := mrbc_get_irep_symbol st.pc_irep.syms rb
  let p := internSym st (name.drop 1)
  let q := mrbc_instance_getiv p.2 (readSlot p.2 p.2.current_regs) p.1
  let st := releaseAt q.2 (q.2.current_regs + ra)
  (writeSlot st (st.current_regs + ra) q.1, 0)

/-- `OP_SETIV`: `ivset(Syms(Bx), R(A))`. -/
def op_setiv (st : VMState) (code : Nat) : VMState × Int :=
  let ra := GETARG_A code
  let rb := GETARG_Bx code
  let name := mrbc_get_irep_symbol st.pc_irep.syms rb
  let p := internSym st (name.drop 1)
  let st := p.2
  (mrbc_instance_setiv st (readSlot st st.current_regs) p.1
    (readSlot st (st.current_regs + ra)), 0)

/-- `OP_GETCONST`: `R(A) := constget(Syms(Bx))`; an unset constant prints a
NameError diagnostic and leaves the (already released) slot EMPTY. -/
def op_getconst (st : VMState) (code : Nat) : VMState × Int :=
  let ra := GETARG_A code
  let rb := GETARG_Bx code
  let name := mrbc_get_irep_symbol st.pc_irep.syms rb
  let p := internSym st name
  let st := releaseAt p.2 (st.current_regs + ra)
  match assocGet st.consts p.1 with
  | none =>
    (emit st ("NameError: uninitialized constant "
      ++ symid_to_str st.symtab p.1 ++ "\n"), 0)
  | some v =>
    let st := { st with heap := dupHeap st.heap v }
    (writeSlot st (st.current_regs + ra) v, 0)

/-- `OP_SETCONST`: `constset(Syms(Bx), R(A))`. -/
def op_setconst (st : VMState) (code : Nat) : VMState × Int :=
  let ra := GETARG_A code
  let rb := GETARG_Bx code
  let name := mrbc_get_irep_symbol st.pc_irep.syms rb
  let p := internSym st name
  let st := dupAt p.2 (st.current_regs + ra)
  ({ st with consts :=
      assocSet st.consts p.1 (readSlot st (st.current_regs + ra)) }, 0)

/-- `OP_GETUPVAR A B C`: follow `C*2 + 1` prev links from the call-info
tail, then `R(A) := up_regs[B]` (released target, duplicated source). -/
def op_getupvar (st : VMState) (code : Nat) : VMState × Int :=
  let ra := GETARG_A code
  let rb := GETARG_B code
  let rc := GETARG_C code
  let base := st.current_regs
  let ci := st.callinfo_tail.getD (rc * 2 + 1) defCI
  let up := ci.current_regs
  let st := releaseAt st (base + ra)
  let st := dupAt st (up + rb)
  (writeSlot st (base + ra) (readSlot st (up + rb)), 0)

/-- `OP_SETUPVAR A B C`: follow `C*2 + 1` prev links from the call-info
tail, then `up_regs[B] := R(A)` (released target, duplicated source). -/
def op_setupvar (st : VMState) (code : Nat) : VMState × Int :=
  let ra := GETARG_A code
  let rb := GETARG_B code
  let rc := GETARG_C code
  let base := st.current_regs
  let ci := st.callinfo_tail.getD (rc * 2 + 1) defCI
  let up := ci.current_regs
  let st := releaseAt st (up + rb)
  let st := dupAt st (base + ra)
  (writeSlot st (up + rb) (readSlot st (base + ra)), 0)

/-- `OP_JMP`: `pc += sBx - 1` (post-fetch compensation). -/
def op_jmp (st : VMState) (code : Nat) : VMState × Int :=
  ({ st with pc := ((st.pc : Int) + GETARG_sBx code - 1).toNat }, 0)

/-- `OP_JMPIF`: jump when `R(A)` is truthy. -/
def op_jmpif (st : VMState) (code : Nat) : VMState × Int :=
  if truthy (readSlot st (st.current_regs + GETARG_A code)).tt then
    ({ st with pc := ((st.pc : Int) + GETARG_sBx code - 1).toNat }, 0)
  else (st, 0)

/-- `OP_JMPNOT`: jump when `R(A)` is falsy. -/
def op_jmpnot (st : VMState) (code : Nat) : VMState × Int :=
  if truthy (readSlot st (st.current_regs + GETARG_A code)).tt then (st, 0)
  else ({ st with pc := ((st.pc : Int) + GETARG_sBx code - 1).toNat }, 0)

/-- `OP_SEND` / `OP_SENDB`: method dispatch.  OP_SEND clears the block slot
`R(A+C+1)` to nil; OP_SENDB rejects a non-proc non-nil block by returning
early.  A missing method prints the `No method.` diagnostic and continues
with `R(A)` untouched.  A native method runs and its argument slots are
released (except for `c_proc_call`); a script method pushes a call-info
frame and shifts the register base by `A`. -/
def op_send (nt : NativeTable) (st : VMState) (code : Nat) : VMState × Int :=
  let ra := GETARG_A code
  let rb := GETARG_B code
  let rc := GETARG_C code
  let base := st.current_regs
  let recv := readSlot st (base + ra)
  let bidx := ra + rc + 1
  let opc := GET_OPCODE code
  if opc = OP_SENDB ∧ (readSlot st (base + bidx)).tt ≠ .nil
      ∧ (readSlot st (base + bidx)).tt ≠ .proc then
    (st, 0)
  else
    let st :=
      if opc = OP_SEND then
        let st := releaseAt st (base + bidx)
        let v := readSlot st (base + bidx)
        writeSlot st (base + bidx) { v with tt := .nil }
      else st
    let name := mrbc_get_irep_symbol st.pc_irep.syms rb
    let p := internSym st name
    let sid := p.1
    let st := p.2
    match find_method st recv sid with
    | none =>
      let cid := find_class_by_object st recv
      let cname := symid_to_str st.symtab (st.registry.getD cid defClass).sym_id
      (emit st ("No method. Class:" ++ cname ++ " Method:" ++ name ++ "\n"), 0)
    | some ph =>
      match (st.heap.getD ph defaultCell).body with
      | .hproc cf fid mirep _ =>
        if cf then
          let st := nt fid st (base + ra) rc
          if fid = c_proc_call_id then (st, 0)
          else (releaseRange st (base + ra + 1) (base + bidx), 0)
        else
          let st := mrbc_push_callinfo st sid rc
          ({ st with
             pc := 0, pc_irep := mirep,
             current_regs := st.current_regs + ra }, 0)
      | _ => (st, 0)

/-- `OP_CALL`: invoke `R(0)` as a proc directly. -/
def op_call (st : VMState) (_code : Nat) : VMState × Int :=
  let st := mrbc_push_callinfo st 0 0
  let pirep :=
    match (st.heap.getD (readSlot st st.current_regs).handle defaultCell).body with
    | .hproc _ _ ir _ => ir
    | _ => defIRep
  ({ st with pc := 0, pc_irep := pirep }, 0)

/-- `OP_SUPER`: copy self into `R(A)`, search the superclass chain of the
receiver instance's class for the currently-executing method symbol,
overwrite the instance's class pointer with the class where the method was
found, then invoke it like `OP_SEND`. -/
def op_super (nt : NativeTable) (st : VMState) (code : Nat) : VMState × Int :=
  let ra := GETARG_A code
  let rc := GETARG_C code
  let base := st.current_regs
  let st := releaseAt st (base + ra)
  let st := dupAt st (base + 0)
  let st := writeSlot st (base + ra) (readSlot st (base + 0))
  let sid := (st.callinfo_tail.headD defCI).mid
  let selfv := readSlot st (base + ra)
  let origCls :=
    match (st.heap.getD selfv.handle defaultCell).body with
    | .hinstance c _ => c
    | _ => mrbc_class_object
  match findMethodRec st.heap st.registry (st.registry.length + 1)
      (st.registry.getD origCls defClass).super sid with
  | none => (st, 0)
  | some fc =>
    let st := { st with heap := setInstanceCls st.heap selfv.handle fc.1 }
    match (st.heap.getD fc.2 defaultCell).body with
    | .hproc cf fid mirep _ =>
      if cf then
        let st := nt fid st (base + ra) rc
        if fid = c_proc_call_id then (st, 0)
        else (releaseRange st (base + ra + 1) (base + ra + rc + 1), 0)
      else
        let st := mrbc_push_callinfo st sid rc
        ({ st with
           pc := 0, pc_irep := mirep,
           current_regs := st.current_regs + ra }, 0)
    | _ => (st, 0)

/-- `OP_ARGARY`: accepted but unimplemented. -/
def op_argary (st : VMState) (_code : Nat) : VMState × Int := (st, 0)

/-- `OP_ENTER`: honour the required/optional argument fields; with optional
arguments present, skip `n_args - args` default-value instructions. -/
def op_enter (st : VMState) (code : Nat) : VMState × Int :=
  let ci := st.callinfo_tail.headD defCI
  let p := GETARG_Ax code
  let def_args := (p >>> 13) % 32
  let args := (p >>> 18) % 32
  if def_args > 0 then
    ({ st with pc := ((st.pc : Int) + (ci.n_args : Int) - (args : Int)).toNat }, 0)
  else (st, 0)

/-- `OP_RETURN A B`: move `R(A)` to `R(0)` and mark the source EMPTY; with
`B = NORMAL` release window slots `1 ≤ i < nregs`, pop one call-info frame
and restore the caller's state from it; with `B = BREAK` unwind frames while
the register base stays the same. -/
def op_return (st : VMState) (code : Nat) : VMState × Int :=
  let ra := GETARG_A code
  let rb := GETARG_B code
  let base := st.current_regs
  let st := releaseAt st (base + 0)
  let st := writeSlot st (base + 0) (readSlot st (base + ra))
  let v := readSlot st (base + ra)
  let st := writeSlot st (base + ra) { v with tt := .empty }
  if rb = OP_R_NORMAL then
    let nregs := st.pc_irep.nregs
    let ci := st.callinfo_tail.headD defCI
    let st := { st with
      callinfo_tail := st.callinfo_tail.tail,
      current_regs := ci.current_regs, pc_irep := ci.pc_irep, pc := ci.pc,
      target_class := ci.target_class }
    (releaseLoop st base 1 nregs, 0)
  else if rb = OP_R_BREAK then
    let top := (st.callinfo_tail.headD defCI).current_regs
    let frames := breakDrop top st.callinfo_tail
    let ci := frames.headD defCI
    ({ st with
      callinfo_tail := frames.tail,
      current_regs := ci.current_regs, pc_irep := ci.pc_irep, pc := ci.pc,
      target_class := ci.target_class }, 0)
  else (st, 0)

/-- `OP_BLKPUSH`: `R(A) := block` (slot `offset+1`, duplicated). -/
def op_blkpush (st : VMState) (code : Nat) : VMState × Int :=
  let ra := GETARG_A code
  let rb := GETARG_Bx code
  let offset := rb >>> 10
  let base := st.current_regs
  let st := releaseAt st (base + ra)
  let st := dupAt st (base + offset + 1)
  (writeSlot st (base + ra) (readSlot st (base + offset + 1)), 0)

/-- `OP_ADD`: numeric fast paths (mixed pairs promote to float), otherwise
fall back to `OP_SEND` dispatch of `:+`. -/
def op_add (nt : NativeTable) (st : VMState) (code : Nat) : VMState × Int :=
  let ra := GETARG_A code
  let base := st.current_regs
  let v1 := readSlot st (base + ra)
  let v2 := readSlot st (base + ra + 1)
  if v1.tt = .fixnum ∧ v2.tt = .fixnum then
    (writeSlot st (base + ra) { v1 with i := v1.i + v2.i }, 0)
  else if v1.tt = .fixnum ∧ v2.tt = .float then
    (writeSlot st (base + ra) { v1 with tt := .float, d := (v1.i : Rat) + v2.d }, 0)
  else if v1.tt = .float ∧ v2.tt = .fixnum then
    (writeSlot st (base + ra) { v1 with d := v1.d + (v2.i : Rat) }, 0)
  else if v1.tt = .float ∧ v2.tt = .float then
    (writeSlot st (base + ra) { v1 with d := v1.d + v2.d }, 0)
  else
    ((op_send nt st code).1, 0)

/-- `OP_ADDI`: `R(A) += C` on fixnum/float, else a diagnostic. -/
def op_addi (st : VMState) (code : Nat) : VMState × Int :=
  let ra := GETARG_A code
  let base := st.current_regs
  let v := readSlot st (base + ra)
  if v.tt = .fixnum then
    (writeSlot st (base + ra) { v with i := v.i + GETARG_C code }, 0)
  else if v.tt = .float then
    (writeSlot st (base + ra) { v with d := v.d + (GETARG_C code : Rat) }, 0)
  else (not_supported st, 0)

/-- `OP_SUB`: like `OP_ADD` with subtraction. -/
def op_sub (nt : NativeTable) (st : VMState) (code : Nat) : VMState × Int :=
  let ra := GETARG_A code
  let base := st.current_regs
  let v1 := readSlot st (base + ra)
  let v2 := readSlot st (base + ra + 1)
  if v1.tt = .fixnum ∧ v2.tt = .fixnum then
    (writeSlot st (base + ra) { v1 with i := v1.i - v2.i }, 0)
  else if v1.tt = .fixnum ∧ v2.tt = .float then
    (writeSlot st (base + ra) { v1 with tt := .float, d := (v1.i : Rat) - v2.d }, 0)
  else if v1.tt = .float ∧ v2.tt = .fixnum then
    (writeSlot st (base + ra) { v1 with d := v1.d - (v2.i : Rat) }, 0)
  else if v1.tt = .float ∧ v2.tt = .float then
    (writeSlot st (base + ra) { v1 with d := v1.d - v2.d }, 0)
  else
    ((op_send nt st code).1, 0)

/-- `OP_SUBI`: `R(A) -= C` on fixnum/float, else a diagnostic. -/
def op_subi (st : VMState) (code : Nat) : VMState × Int :=
  let ra := GETARG_A code
  let base := st.current_regs
  let v := readSlot st (base + ra)
  if v.tt = .fixnum then
    (writeSlot st (base + ra) { v with i := v.i - GETARG_C code }, 0)
  else if v.tt = .float then
    (writeSlot st (base + ra) { v with d := v.d - (GETARG_C code : Rat) }, 0)
  else (not_supported st, 0)

/-- `OP_MUL`: like `OP_ADD` with multiplication; on fallback the operand
slot `R(A+1)` is additionally released. -/
def op_mul (nt : NativeTable) (st : VMState) (code : Nat) : VMState × Int :=
  let ra := GETARG_A code
  let base := st.current_regs
  let v1 := readSlot st (base + ra)
  let v2 := readSlot st (base + ra + 1)
  if v1.tt = .fixnum ∧ v2.tt = .fixnum then
    (writeSlot st (base + ra) { v1 with i := v1.i * v2.i }, 0)
  else if v1.tt = .fixnum ∧ v2.tt = .float then
    (writeSlot st (base + ra) { v1 with tt := .float, d := (v1.i : Rat) * v2.d }, 0)
  else if v1.tt = .float ∧ v2.tt = .fixnum then
    (writeSlot st (base + ra) { v1 with d := v1.d * (v2.i : Rat) }, 0)
  else if v1.tt = .float ∧ v2.tt = .float then
    (writeSlot st (base + ra) { v1 with d := v1.d * v2.d }, 0)
  else
    (releaseAt (op_send nt st code).1 (base + ra + 1), 0)

/-- `OP_DIV`: like `OP_MUL` with division (C integer division truncates
toward zero; division by zero is host behaviour, modelled as 0). -/
def op_div (nt : NativeTable) (st : VMState) (code : Nat) : VMState × Int :=
  let ra := GETARG_A code
  let base := st.current_regs
  let v1 := readSlot st (base + ra)
  let v2 := readSlot st (base + ra + 1)
  if v1.tt = .fixnum ∧ v2.tt = .fixnum then
    (writeSlot st (base + ra) { v1 with i := v1.i / v2.i }, 0)
  else if v1.tt = .fixnum ∧ v2.tt = .float then
    (writeSlot st (base + ra) { v1 with tt := .float, d := (v1.i : Rat) / v2.d }, 0)
  else if v1.tt = .float ∧ v2.tt = .fixnum then
    (writeSlot st (base + ra) { v1 with d := v1.d / (v2.i : Rat) }, 0)
  else if v1.tt = .float ∧ v2.tt = .float then
    (writeSlot st (base + ra) { v1 with d := v1.d / v2.d }, 0)
  else
    (releaseAt (op_send nt st code).1 (base + ra + 1), 0)

/-- `OP_EQ`: equality by `mrbc_compare`; both operand slots are released and
`R(A)` receives TRUE on compare-equal, else FALSE. -/
def op_eq (st : VMState) (code : Nat) : VMState × Int :=
  let ra := GETARG_A code
  let base := st.current_regs
  let result := cmpFueled (st.heap.length + 1) st.heap
    (readSlot st (base + ra)) (readSlot st (base + ra + 1))
  let st := releaseAt st (base + ra + 1)
  let st := releaseAt st (base + ra)
  let v := readSlot st (base + ra)
  (writeSlot st (base + ra)
    { v with tt := if result = 0 then .ttrue else .ffalse }, 0)

/-- `OP_LT`: numeric comparison fast paths, else `OP_SEND` fallback with
`R(A+1)` released. -/
def op_lt (nt : NativeTable) (st : VMState) (code : Nat) : VMState × Int :=
  let ra := GETARG_A code
  let base := st.current_regs
  let v1 := readSlot st (base + ra)
  let v2 := readSlot st (base + ra + 1)
  if v1.tt = .fixnum ∧ v2.tt = .fixnum then
    (writeSlot st (base + ra) { v1 with tt := if v1.i < v2.i then .ttrue else .ffalse }, 0)
  else if v1.tt = .fixnum ∧ v2.tt = .float then
    (writeSlot st (base + ra) { v1 with tt := if (v1.i : Rat) < v2.d then .ttrue else .ffalse }, 0)
  else if v1.tt = .float ∧ v2.tt = .fixnum then
    (writeSlot st (base + ra) { v1 with tt := if v1.d < (v2.i : Rat) then .ttrue else .ffalse }, 0)
  else if v1.tt = .float ∧ v2.tt = .float then
    (writeSlot st (base + ra) { v1 with tt := if v1.d < v2.d then .ttrue else .ffalse }, 0)
  else
    (releaseAt (op_send nt st code).1 (base + ra + 1), 0)

/-- `OP_LE`: like `OP_LT` with `≤`. -/
def op_le (nt : NativeTable) (st : VMState) (code : Nat) : VMState × Int :=
  let ra := GETARG_A code
  let base := st.current_regs
  let v1 := readSlot st (base + ra)
  let v2 := readSlot st (base + ra + 1)
  if v1.tt = .fixnum ∧ v2.tt = .fixnum then
    (writeSlot st (base + ra) { v1 with tt := if v1.i ≤ v2.i then .ttrue else .ffalse }, 0)
  else if v1.tt = .fixnum ∧ v2.tt = .float then
    (writeSlot st (base + ra) { v1 with tt := if (v1.i : Rat) ≤ v2.d then .ttrue else .ffalse }, 0)
  else if v1.tt = .float ∧ v2.tt = .fixnum then
    (writeSlot st (base + ra) { v1 with tt := if v1.d ≤ (v2.i : Rat) then .ttrue else .ffalse }, 0)
  else if v1.tt = .float ∧ v2.tt = .float then
    (writeSlot st (base + ra) { v1 with tt := if v1.d ≤ v2.d then .ttrue else .ffalse }, 0)
  else
    (releaseAt (op_send nt st code).1 (base + ra + 1), 0)

/-- `OP_GT`: like `OP_LT` with `>`. -/
def op_gt (nt : NativeTable) (st : VMState) (code : Nat) : VMState × Int :=
  let ra := GETARG_A code
  let base := st.current_regs
  let v1 := readSlot st (base + ra)
  let v2 := readSlot st (base + ra + 1)
  if v1.tt = .fixnum ∧ v2.tt = .fixnum then
    (writeSlot st (base + ra) { v1 with tt := if v1.i > v2.i then .ttrue else .ffalse }, 0)
  else if v1.tt = .fixnum ∧ v2.tt = .float then
    (writeSlot st (base + ra) { v1 with tt := if (v1.i : Rat) > v2.d then .ttrue else .ffalse }, 0)
  else if v1.tt = .float ∧ v2.tt = .fixnum then
    (writeSlot st (base + ra) { v1 with tt := if v1.d > (v2.i : Rat) then .ttrue else .ffalse }, 0)
  else if v1.tt = .float ∧ v2.tt = .float then
    (writeSlot st (base + ra) { v1 with tt := if v1.d > v2.d then .ttrue else .ffalse }, 0)
  else
    (releaseAt (op_send nt st code).1 (base + ra + 1), 0)

/-- `OP_GE`: like `OP_LT` with `≥`. -/
def op_ge (nt : NativeTable) (st : VMState) (code : Nat) : VMState × Int :=
  let ra := GETARG_A code
  let base := st.current_regs
  let v1 := readSlot st (base + ra)
  let v2 := readSlot st (base + ra + 1)
  if v1.tt = .fixnum ∧ v2.tt = .fixnum then
    (writeSlot st (base + ra) { v1 with tt := if v1.i ≥ v2.i then .ttrue else .ffalse }, 0)
  else if v1.tt = .fixnum ∧ v2.tt = .float then
    (writeSlot st (base + ra) { v1 with tt := if (v1.i : Rat) ≥ v2.d then .ttrue else .ffalse }, 0)
  else if v1.tt = .float ∧ v2.tt = .fixnum then
    (writeSlot st (base + ra) { v1 with tt := if v1.d ≥ (v2.i : Rat) then .ttrue else .ffalse }, 0)
  else if v1.tt = .float ∧ v2.tt = .float then
    (writeSlot st (base + ra) { v1 with tt := if v1.d ≥ v2.d then .ttrue else .ffalse }, 0)
  else
    (releaseAt (op_send nt st code).1 (base + ra + 1), 0)

/-- `OP_ARRAY A B C`: allocate a `C`-element array (`-1` on ENOMEM), memcpy
the slots `R(B)..R(B+C-1)` into it, memset those source slots to zero, then
release `R(A)` and store the array value there. -/
def op_array (st : VMState) (code : Nat) : VMState × Int :=
  let ra := GETARG_A code
  let rb := GETARG_B code
  let rc := GETARG_C code
  let base := st.current_regs
  let p := mrbc_array_new st rc
  match p.1 with
  | none => (p.2, -1)
  | some h =>
    let st := p.2
    let data := (List.range rc).map (fun j => readSlot st (base + rb + j))
    let st := { st with heap := setBody st.heap h (.harray data) }
    let st := (List.range rc).foldl
      (fun s j => writeSlot s (base + rb + j) zeroVal) st
    let st := releaseAt st (base + ra)
    (writeSlot st (base + ra) { tt := .array, handle := h }, 0)

/-- `OP_STRING A Bx`: build a fresh string from pool entry `Bx` (`-1` on
ENOMEM), release `R(A)` and store it. -/
def op_string (st : VMState) (code : Nat) : VMState × Int :=
  let ra := GETARG_A code
  let rb := GETARG_Bx code
  let pool := st.pc_irep.pools.getD rb zeroVal
  let p := mrbc_string_new st pool.sval
  match p.1 with
  | none => (p.2, -1)
  | some h =>
    let st := releaseAt p.2 (p.2.current_regs + ra)
    (writeSlot st (st.current_regs + ra) { tt := .string, handle := h }, 0)

/-- `OP_STRCAT A B`: fast-path a native `to_s` on `R(B)`, then store the
concatenation into `R(A)`. -/
def op_strcat (nt : NativeTable) (st : VMState) (code : Nat) : VMState × Int :=
  let ra := GETARG_A code
  let rb := GETARG_B code
  let base := st.current_regs
  let p := internSym st "to_s"
  let st := p.2
  let st :=
    match find_method st (readSlot st (base + rb)) p.1 with
    | some ph =>
      match (st.heap.getD ph defaultCell).body with
      | .hproc true fid _ _ => nt fid st (base + rb) 0
      | _ => st
    | none => st
  let q := mrbc_string_add st (readSlot st (base + ra)) (readSlot st (base + rb))
  let st := releaseAt q.2 (q.2.current_regs + ra)
  (writeSlot st (st.current_regs + ra) q.1, 0)

/-- `OP_HASH A B C`: like `OP_ARRAY` with `C` key/value pairs (`2*C`
slots). -/
def op_hash (st : VMState) (code : Nat) : VMState × Int :=
  let ra := GETARG_A code
  let rb := GETARG_B code
  let rc := GETARG_C code
  let base := st.current_regs
  let p := mrbc_hash_new st rc
  match p.1 with
  | none => (p.2, -1)
  | some h =>
    let st := p.2
    let n := rc * 2
    let data := (List.range n).map (fun j => readSlot st (base + rb + j))
    let st := { st with heap := setBody st.heap h (.hhash data) }
    let st := (List.range n).foldl
      (fun s j => writeSlot s (base + rb + j) zeroVal) st
    let st := releaseAt st (base + ra)
    (writeSlot st (base + ra) { tt := .hash, handle := h }, 0)

/-- `OP_LAMBDA A Bz`: allocate a script proc over child IREP `reps[Bz]`
(`-1` on ENOMEM), release `R(A)` and store the proc. -/
def op_lambda (st : VMState) (code : Nat) : VMState × Int :=
  let ra := GETARG_A code
  let rb := GETARG_Bz code
  let p := mrbc_rproc_alloc st
  match p.1 with
  | none => (p.2, -1)
  | some h =>
    let st := p.2
    let b : HBody := .hproc false 0 (st.pc_irep.reps.getD rb defIRep) 0
    let st := { st with heap := setBody st.heap h b }
    let st := releaseAt st (st.current_regs + ra)
    let v := readSlot st (st.current_regs + ra)
    (writeSlot st (st.current_regs + ra) { v with tt := .proc, handle := h }, 0)

/-- `OP_RANGE A B C`: duplicate `R(B)` and `R(B+1)`, build a range (`-1` on
ENOMEM), release `R(A)` and store it. -/
def op_range (st : VMState) (code : Nat) : VMState × Int :=
  let ra := GETARG_A code
  let rb := GETARG_B code
  let rc := GETARG_C code
  let base := st.current_regs
  let st := dupAt st (base + rb)
  let st := dupAt st (base + rb + 1)
  let p := mrbc_range_new st (readSlot st (base + rb))
    (readSlot st (base + rb + 1)) rc
  match p.1 with
  | none => (p.2, -1)
  | some h =>
    let st := releaseAt p.2 (base + ra)
    (writeSlot st (base + ra) { tt := .range, handle := h }, 0)

/-- `OP_CLASS A B`: define (or reopen) the class named `Syms(B)` with
superclass `R(A+1)` when that is a class value (else Object), and store the
class value directly into `R(A)` — the source stores without releasing the
slot's prior content. -/
def op_class (st : VMState) (code : Nat) : VMState × Int :=
  let ra := GETARG_A code
  let rb := GETARG_B code
  let base := st.current_regs
  let name := mrbc_get_irep_symbol st.pc_irep.syms rb
  let superc :=
    if (readSlot st (base + ra + 1)).tt = .cls
    then (readSlot st (base + ra + 1)).handle
    else mrbc_class_object
  let p := mrbc_define_class st name superc
  (writeSlot p.2 (base + ra) { tt := .cls, handle := p.1 }, 0)

/-- `OP_EXEC A Bx`: enter child IREP `Bx` of the root IREP in a fresh frame
whose target class is the class of `R(A)`. -/
def op_exec (st : VMState) (code : Nat) : VMState × Int :=
  let ra := GETARG_A code
  let rb := GETARG_Bx code
  let recv := readSlot st (st.current_regs + ra)
  let st := mrbc_push_callinfo st 0 0
  let st := { st with
    pc := 0, pc_irep := st.irep.reps.getD rb defIRep,
    current_regs := st.current_regs + ra }
  ({ st with target_class := find_class_by_object st recv }, 0)

/-- `OP_METHOD A B`: attach the proc in `R(A+1)` to the class in `R(A)`
under symbol `Syms(B)`; a previously attached method with the same symbol is
unlinked and freed; the source slot is marked EMPTY. -/
def op_method (st : VMState) (code : Nat) : VMState × Int :=
  let ra := GETARG_A code
  let rb := GETARG_B code
  let base := st.current_regs
  let clsId := (readSlot st (base + ra)).handle
  let ph := (readSlot st (base + ra + 1)).handle
  let name := mrbc_get_irep_symbol st.pc_irep.syms rb
  let p := internSym st name
  let sid := p.1
  let st := p.2
  let st := { st with heap := setCellVmId (setProcSym st.heap ph sid) ph 0 }
  let cl := st.registry.getD clsId defClass
  let q := removeFirstProc st.heap sid cl.procs
  let st := { st with registry := st.registry.set clsId { cl with procs := ph :: q.1 } }
  let st :=
    match q.2 with
    | some dh => { st with heap := setBody st.heap dh .hfree }
    | none => st
  let v := readSlot st (base + ra + 1)
  (writeSlot st (base + ra + 1) { v with tt := .empty }, 0)

/-- `OP_SCLASS`: accepted but unimplemented. -/
def op_sclass (st : VMState) (_code : Nat) : VMState × Int := (st, 0)

/-- `OP_TCLASS`: `R(A) := target_class`. -/
def op_tclass (st : VMState) (code : Nat) : VMState × Int :=
  let ra := GETARG_A code
  let base := st.current_regs
  let st := releaseAt st (base + ra)
  let v := readSlot st (base + ra)
  (writeSlot st (base + ra) { v with tt := .cls, handle := st.target_class }, 0)

/-- `OP_STOP` / `OP_ABORT` (one handler): `OP_STOP` first releases every one
of the `MAX_REGS_SIZE` slots of the whole register file; both set the
preemption flag and return `-1`. -/
def op_stop (st : VMState) (code : Nat) : VMState × Int :=
  let st :=
    if GET_OPCODE code = OP_STOP then
      (List.range MAX_REGS_SIZE).foldl releaseAt st
    else st
  ({ st with flag_preemption := true }, -1)

/-! ## The dispatcher (`mrbc_vm_run`) -/

/-- One iteration of the fetch-decode-execute loop of `mrbc_vm_run`: fetch
the word at `pc_irep.code[pc]`, advance `pc`, dispatch on the opcode.  `ret`
is the loop's running return value; the unknown-opcode default prints a
`Skip` diagnostic and leaves `ret` unchanged, exactly as the C `switch`
does. -/
def vmStep (nt : NativeTable) (st : VMState) (ret : Int) : VMState × Int :=
  let code := st.pc_irep.code.getD st.pc 0
  let st := { st with pc := st.pc + 1 }
  let opcode := GET_OPCODE code
  if opcode = OP_NOP then op_nop st code
  else if opcode = OP_MOVE then op_move st code
  else if opcode = OP_LOADL then op_loadl st code
  else if opcode = OP_LOADI then op_loadi st code
  else if opcode = OP_LOADSYM then op_loadsym st code
  else if opcode = OP_LOADNIL then op_loadnil st code
  else if opcode = OP_LOADSELF then op_loadself st code
  else if opcode = OP_LOADT then op_loadt st code
  else if opcode = OP_LOADF then op_loadf st code
  else if opcode = OP_GETGLOBAL then op_getglobal st code
  else if opcode = OP_SETGLOBAL then op_setglobal st code
  else if opcode = OP_GETIV then op_getiv st code
  else if opcode = OP_SETIV then op_setiv st code
  else if opcode = OP_GETCONST then op_getconst st code
  else if opcode = OP_SETCONST then op_setconst st code
  else if opcode = OP_GETMCNST then op_getconst st code
  else if opcode = OP_GETUPVAR then op_getupvar st code
  else if opcode = OP_SETUPVAR then op_setupvar st code
  else if opcode = OP_JMP then op_jmp st code
  else if opcode = OP_JMPIF then op_jmpif st code
  else if opcode = OP_JMPNOT then op_jmpnot st code
  else if opcode = OP_SEND then op_send nt st code
  else if opcode = OP_SENDB then op_send nt st code
  else if opcode = OP_CALL then op_call st code
  else if opcode = OP_SUPER then op_super nt st code
  else if opcode = OP_ARGARY then op_argary st code
  else if opcode = OP_ENTER then op_enter st code
  else if opcode = OP_RETURN then op_return st code
  else if opcode = OP_BLKPUSH then op_blkpush st code
  else if opcode = OP_ADD then op_add nt st code
  else if opcode = OP_ADDI then op_addi st code
  else if opcode = OP_SUB then op_sub nt st code
  else if opcode = OP_SUBI then op_subi st code
  else if opcode = OP_MUL then op_mul nt st code
  else if opcode = OP_DIV then op_div nt st code
  else if opcode = OP_EQ then op_eq st code
  else if opcode = OP_LT then op_lt nt st code
  else if opcode = OP_LE then op_le nt st code
  else if opcode = OP_GT then op_gt nt st code
  else if opcode = OP_GE then op_ge nt st code
  else if opcode = OP_ARRAY then op_array st code
  else if opcode = OP_STRING then op_string st code
  else if opcode = OP_STRCAT then op_strcat nt st code
  else if opcode = OP_HASH then op_hash st code
  else if opcode = OP_LAMBDA then op_lambda st code
  else if opcode = OP_RANGE then op_range st code
  else if opcode = OP_CLASS then op_class st code
  else if opcode = OP_EXEC then op_exec st code
  else if opcode = OP_METHOD then op_method st code
  else if opcode = OP_SCLASS then op_sclass st code
  else if opcode = OP_TCLASS then op_tclass st code
  else if opcode = OP_STOP then op_stop st code
  else if opcode = OP_ABORT then op_stop st code
  else (emit st ("Skip OP=" ++ hex2 opcode ++ "\n"), ret)

/-- `mrbc_vm_run`: the `do { ... } while( !vm->flag_preemption )` loop.
After the loop the flag is cleared and the last return value is returned.
`fuel` bounds the number of iterations (the C loop runs until the flag is
set); an exhausted fuel returns the state as is. -/
def mrbc_vm_run (nt : NativeTable) : Nat → VMState → Int → VMState × Int
  | 0, st, ret => (st, ret)
  | Nat.succ fuel, st, ret =>
    let p := vmStep nt st ret
    if p.1.flag_preemption then ({ p.1 with flag_preemption := false }, p.2)
    else mrbc_vm_run nt fuel p.1 p.2

/-! ## VM lifecycle (`mrbc_vm_open` / `mrbc_vm_close` / `mrbc_vm_begin`) -/

/-- `FREE_BITMAP_WIDTH` of `vm.c`. -/
def FREE_BITMAP_WIDTH : Nat := 32

/-- Number of words in `free_vm_bitmap`:
`MAX_VM_COUNT / 32 + 1` (`Num(free_vm_bitmap)`). -/
def vmBitmapWords : Nat := MAX_VM_COUNT / 32 + 1

/-- `nlz32` of `vm.c`: number of leading zeros of a 32-bit word, via the
branchy shift cascade. -/
def nlz32 (x0 : Nat) : Nat :=
  let x := x0 % 4294967296
  if x = 0 then 32
  else
    let n := 1
    let p := if x >>> 16 = 0 then (n + 16, (x <<< 16) % 4294967296) else (n, x)
    let n := p.1
    let x := p.2
    let p := if x >>> 24 = 0 then (n + 8, (x <<< 8) % 4294967296) else (n, x)
    let n := p.1
    let x := p.2
    let p := if x >>> 28 = 0 then (n + 4, (x <<< 4) % 4294967296) else (n, x)
    let n := p.1
    let x := p.2
    let p := if x >>> 30 = 0 then (n + 2, (x <<< 2) % 4294967296) else (n, x)
    let n := p.1
    let x := p.2
    n - (x >>> 31)

/-- The word-scan loop of `mrbc_vm_open` (`for( i = 0; i < Num(..); i++ )`),
counting down the words left to scan: for each bitmap word compute
`nlz32(~word)`; if it names a free bit, set that bit and produce
`vm_id = i * 32 + n + 1`. -/
def vmOpenScan (bitmap : List Nat) : Nat → Nat → Option (List Nat × Nat)
  | 0, _ => none
  | Nat.succ k, i =>
    let w := bitmap.getD i 0 % 4294967296
    let n := nlz32 (w ^^^ 4294967295)
    if n < FREE_BITMAP_WIDTH then
      some (bitmap.set i (w ||| (1 <<< (FREE_BITMAP_WIDTH - n - 1))),
            i * FREE_BITMAP_WIDTH + n + 1)
    else vmOpenScan bitmap k (i + 1)

/-- `mrbc_vm_open` restricted to its observable vm-id allocation: given the
`free_vm_bitmap` contents, return the updated bitmap and the allocated id,
or `none` when `vm_id` stays 0 and the C function returns NULL.  (The
`vm_arg == NULL` malloc path and the `memset` of the VM structure carry no
id-allocation effect.) -/
def mrbc_vm_open_ids (bitmap : List Nat) : Option (List Nat × Nat) :=
  vmOpenScan bitmap bitmap.length 0

/-- `mrbc_vm_close` restricted to the bitmap effect: clear the bit of
`vm_id`. -/
def mrbc_vm_close_ids (bitmap : List Nat) (vm_id : Nat) : List Nat :=
  let i := (vm_id - 1) / FREE_BITMAP_WIDTH
  let n := (vm_id - 1) % FREE_BITMAP_WIDTH
  let w := bitmap.getD i 0 % 4294967296
  bitmap.set i (w &&& (4294967295 ^^^ (1 <<< (FREE_BITMAP_WIDTH - n - 1))))

/-- Run `k` successive `mrbc_vm_open` calls (no intervening closes),
collecting the result of each call (`none` models a NULL return). -/
def vmOpenN : Nat → List Nat → List Nat × List (Option Nat)
  | 0, bm => (bm, [])
  | Nat.succ k, bm =>
    match mrbc_vm_open_ids bm with
    | some q =>
      let r := vmOpenN k q.1
      (r.1, some q.2 :: r.2)
    | none =>
      let r := vmOpenN k bm
      (r.1, none :: r.2)

/-- `mrbc_vm_begin` of `vm.c`: reset `pc` to the root IREP, zero the register
file, fill slots 1.. with NIL, seed `R(0)` with the root Object class, clear
the call-info stack, the error code and the preemption flag. -/
def mrbc_vm_begin (st : VMState) : VMState :=
  let regs := (List.range MAX_REGS_SIZE).map
    (fun i =>
      if i = 0 then { tt := MTag.cls, handle := mrbc_class_object }
      else { zeroVal with tt := MTag.nil })
  { st with
    pc_irep := st.irep, pc := 0, current_regs := 0, regs := regs,
    callinfo_tail := [], target_class := mrbc_class_object,
    error_code := 0, flag_preemption := false }

/-! ## Specification-side definitions (for refinement-style claims) -/

/-- The reference count stored on heap cell `h` (0 for a missing cell). -/
def refCountAt (heap : List HeapCell) (h : Nat) : Nat :=
  (heap.getD h defaultCell).ref_count

/-- The cross-tag comparison rule as the specification words it: mixing
`EMPTY` with `NIL` is equal; a fixnum/float pair is compared numerically
after promoting the fixnum; any other pair of distinct tags compares by the
difference of the tags. -/
def compareSpecDiffTag (v1 v2 : MrbcValue) : Int :=
  if (v1.tt = .empty ∧ v2.tt = .nil) ∨ (v1.tt = .nil ∧ v2.tt = .empty) then 0
  else if v1.tt = .fixnum ∧ v2.tt = .float then cmpFloat (v1.i : Rat) v2.d
  else if v1.tt = .float ∧ v2.tt = .fixnum then cmpFloat v1.d (v2.i : Rat)
  else ttVal v1.tt - ttVal v2.tt

/-- The caller-state restore of `RETURN NORMAL` as the claim words it: pop
one frame and restore the caller's `(ip, irep, base, target_class)`. -/
def restoreFrom (st : VMState) (ci : CallInfo) (rest : List CallInfo) :
    VMState :=
  { st with
    callinfo_tail := rest, current_regs := ci.current_regs,
    pc_irep := ci.pc_irep, pc := ci.pc, target_class := ci.target_class }

/-- The claim-side description of `RETURN A NORMAL` (with the amended
release range `1 ≤ i < nregs`): move `R(A)` into `R(0)` and mark the source
slot EMPTY, release the callee-window slots `R(1)..R(nregs-1)` (`nregs` from
the returning method's IREP), then pop one call-info frame and restore the
caller's state from it. -/
def op_return_normal_spec (st : VMState) (code : Nat) : VMState :=
  let ra := GETARG_A code
  let base := st.current_regs
  let nregs := st.pc_irep.nregs
  let st' := releaseAt st (base + 0)
  let st' := writeSlot st' (base + 0) (readSlot st' (base + ra))
  let v := readSlot st' (base + ra)
  let st' := writeSlot st' (base + ra) { v with tt := .empty }
  let st' := releaseLoop st' base 1 nregs
  restoreFrom st' (st.callinfo_tail.headD defCI) st.callinfo_tail.tail

/-- The list of class ids visited by a superclass walk (used to state
acyclicity for the SUPER claim). -/
def superChain (reg : List MClass) : Nat → Option Nat → List Nat
  | 0, _ => []
  | Nat.succ _, none => []
  | Nat.succ fuel, some c => c :: superChain reg fuel (reg.getD c defClass).super

/-! ## Concrete states for counterexamples and witnesses -/

/-- An IREP whose program is `ARRAY R1,R1,1 ; LOADI R5,42 ; ABORT`. -/
def c1Irep : IRep :=
  .mk 8 0 [mkABC OP_ARRAY 1 1 1, mkAsBx OP_LOADI 5 42, mkABC OP_ABORT 0 0 0]
    [] [] []

/-- A VM about to run `c1Irep` whose allocator fails the first request. -/
def c1St : VMState :=
  { regs := List.replicate 8 zeroVal,
    current_regs := 0, pc := 0, pc_irep := c1Irep, irep := c1Irep,
    callinfo_tail := [], target_class := 0, flag_preemption := false,
    error_code := 0, vm_id := 1, heap := [], registry := [], symtab := [],
    globals := [], consts := [], out := [], allocOk := [false] }

/-- A one-method-name symbol table and an Object-only registry: receiver is
an instance of Object (registry index 0), which defines no methods. -/
def c2St : VMState :=
  { regs := [{ tt := .object, handle := 0 }, { tt := .object, handle := 0 },
             { tt := .fixnum, i := 9 }, zeroVal, zeroVal],
    current_regs := 0, pc := 0,
    pc_irep := .mk 3 0 [] [] ["nope"] [], irep := defIRep,
    callinfo_tail := [], target_class := 0, flag_preemption := false,
    error_code := 0, vm_id := 1,
    heap := [{ ref_count := 2, vm_id := 1, body := .hinstance 0 [] }],
    registry := [{ sym_id := 1, super := none, procs := [] }],
    symtab := ["Object", "nope"], globals := [], consts := [], out := [],
    allocOk := [] }

/-- `SEND R1, Syms(0)="nope", 0 args`. -/
def c2Code : Nat := mkABC OP_SEND 1 0 0

/-- A state whose slot `R(1)` holds a live array cell (refcount 1), about to
execute `CLASS R1, Syms(0)="Foo"` — the handler overwrites the slot without
releasing the array. -/
def c3ClsSt : VMState :=
  { regs := [zeroVal, { tt := .array, handle := 0 }, zeroVal, zeroVal],
    current_regs := 0, pc := 0,
    pc_irep := .mk 3 0 [] [] ["Foo"] [], irep := defIRep,
    callinfo_tail := [], target_class := 0, flag_preemption := false,
    error_code := 0, vm_id := 1,
    heap := [{ ref_count := 1, vm_id := 1, body := .harray [] }],
    registry := [{ sym_id := 1, super := none, procs := [] }],
    symtab := ["Object"], globals := [], consts := [], out := [],
    allocOk := [] }

/-- `CLASS R1, Syms(0)`. -/
def c3ClsCode : Nat := mkABC OP_CLASS 1 0 0

/-- A state for the C3 witness: `R(1)` holds an array cell with refcount 2;
every other operand the nine handlers read is an immediate; one global is
unset; one call-info frame gives GETUPVAR a target frame; the allocator
succeeds. -/
def c3St : VMState :=
  { regs := [{ tt := .fixnum, i := 5 }, { tt := .array, handle := 0 },
             { tt := .fixnum, i := 6 }, { tt := .fixnum, i := 7 },
             { tt := .fixnum, i := 8 }, zeroVal, zeroVal, zeroVal],
    current_regs := 0, pc := 0,
    pc_irep := .mk 8 0 [] [{ tt := .fixnum, i := 11 }] ["g"] [],
    irep := defIRep,
    callinfo_tail := [defCI, defCI],
    target_class := 0, flag_preemption := false,
    error_code := 0, vm_id := 1,
    heap := [{ ref_count := 2, vm_id := 1, body := .harray [] }],
    registry := [{ sym_id := 1, super := none, procs := [] }],
    symtab := ["Object", "g"], globals := [], consts := [], out := [],
    allocOk := [] }

/-- An IREP with `nregs = 2` for the C4 counterexample. -/
def c4bIrep : IRep := .mk 2 0 [] [] [] []

/-- A returning method whose `nregs` is 2 while slot `R(2)` holds a live
array cell: the release loop `i < nregs` never reaches `R(2)`. -/
def c4bSt : VMState :=
  { regs := [zeroVal, { tt := .fixnum, i := 3 }, { tt := .array, handle := 0 },
             zeroVal],
    current_regs := 0, pc := 7, pc_irep := c4bIrep, irep := c4bIrep,
    callinfo_tail := [{ current_regs := 0, pc_irep := defIRep, pc := 2,
                        mid := 0, n_args := 0, target_class := 0 }],
    target_class := 0, flag_preemption := false,
    error_code := 0, vm_id := 1,
    heap := [{ ref_count := 1, vm_id := 1, body := .harray [] }],
    registry := [], symtab := [], globals := [], consts := [], out := [],
    allocOk := [] }

/-- `RETURN R1, NORMAL`. -/
def c4bCode : Nat := mkABC OP_RETURN 1 OP_R_NORMAL 0

/-- An IREP with `nregs = 3` for the C4 witness. -/
def c4Irep : IRep := .mk 3 0 [] [] [] []

/-- A state for the C4 witness: one call-info frame to pop, `nregs = 3`. -/
def c4St : VMState :=
  { regs := [{ tt := .fixnum, i := 1 }, { tt := .fixnum, i := 3 },
             { tt := .array, handle := 0 }, { tt := .fixnum, i := 4 },
             zeroVal],
    current_regs := 0, pc := 7, pc_irep := c4Irep, irep := c4Irep,
    callinfo_tail := [{ current_regs := 2, pc_irep := defIRep, pc := 5,
                        mid := 0, n_args := 0, target_class := 3 }],
    target_class := 0, flag_preemption := false,
    error_code := 0, vm_id := 1,
    heap := [{ ref_count := 1, vm_id := 1, body := .harray [] }],
    registry := [], symtab := [], globals := [], consts := [], out := [],
    allocOk := [] }

/-- `RETURN R1, NORMAL` for the C4 witness. -/
def c4Code : Nat := mkABC OP_RETURN 1 OP_R_NORMAL 0

/-- A state for the C5 witness: `R(2),R(3),R(4)` hold 10,20,30, the
destination `R(1)` is empty, the allocator succeeds. -/
def c5St : VMState :=
  { regs := [zeroVal, zeroVal, { tt := .fixnum, i := 10 },
             { tt := .fixnum, i := 20 }, { tt := .fixnum, i := 30 },
             zeroVal],
    current_regs := 0, pc := 0, pc_irep := defIRep, irep := defIRep,
    callinfo_tail := [], target_class := 0, flag_preemption := false,
    error_code := 0, vm_id := 1,
    heap := [{ ref_count := 2, vm_id := 1, body := .harray [] }],
    registry := [], symtab := [], globals := [], consts := [], out := [],
    allocOk := [true] }

/-- `ARRAY R1, R2, 3`. -/
def c5Code : Nat := mkABC OP_ARRAY 1 2 3

/-- The spec's own end-to-end scenario 2: `ARRAY R1, R1, 3` — destination
inside the source range. -/
def c5bSt : VMState :=
  { regs := [zeroVal, { tt := .fixnum, i := 10 }, { tt := .fixnum, i := 20 },
             { tt := .fixnum, i := 30 }, zeroVal],
    current_regs := 0, pc := 0, pc_irep := defIRep, irep := defIRep,
    callinfo_tail := [], target_class := 0, flag_preemption := false,
    error_code := 0, vm_id := 1, heap := [],
    registry := [], symtab := [], globals := [], consts := [], out := [],
    allocOk := [true] }

/-- `ARRAY R1, R1, 3`. -/
def c5bCode : Nat := mkABC OP_ARRAY 1 1 3

/-- Concrete values for the C6 witness: a SYMBOL and a HASH value. -/
def c6v1 : MrbcValue := { tt := .symbol, i := 4 }

/-- See `c6v1`. -/
def c6v2 : MrbcValue := { tt := .hash, handle := 0 }

/-- A state for the C7 witness: two call-info frames (the walk with `C = 0`
follows `0*2 + 1 = 1` link, landing on the second frame, whose base is 4);
`R(2)` of the current window holds 7, slot 5 (= frame base 4 + B 1) holds an
array value. -/
def c7St : VMState :=
  { regs := [zeroVal, zeroVal, { tt := .fixnum, i := 7 }, zeroVal,
             zeroVal, { tt := .array, handle := 0 }, zeroVal, zeroVal],
    current_regs := 0, pc := 0, pc_irep := defIRep, irep := defIRep,
    callinfo_tail := [{ current_regs := 1, pc_irep := defIRep, pc := 0,
                        mid := 0, n_args := 0, target_class := 0 },
                      { current_regs := 4, pc_irep := defIRep, pc := 0,
                        mid := 0, n_args := 0, target_class := 0 }],
    target_class := 0, flag_preemption := false,
    error_code := 0, vm_id := 1,
    heap := [{ ref_count := 1, vm_id := 1, body := .harray [] }],
    registry := [], symtab := [], globals := [], consts := [], out := [],
    allocOk := [] }

/-- `GETUPVAR/SETUPVAR A=2 B=1 C=0`. -/
def c7Code : Nat := mkABC OP_GETUPVAR 2 1 0

/-- A registry for the C10 scenario: class 2 (`Sub`) with superclass 1
(`Sup`) with superclass 0 (`Object`); `Sup` (id 1) carries the method
`m` (proc handle 1, a script proc). -/
def c10Registry : List MClass :=
  [{ sym_id := 1, super := none, procs := [] },
   { sym_id := 2, super := some 0, procs := [1] },
   { sym_id := 3, super := some 1, procs := [] }]

/-- A state for the C10 witness: `R(0)` holds an instance of class 2; the
current call-info frame records method symbol 4 (`m`), which resolves on
class 1. -/
def c10St : VMState :=
  { regs := [{ tt := .object, handle := 0 }, { tt := .fixnum, i := 3 },
             zeroVal, zeroVal],
    current_regs := 0, pc := 0, pc_irep := defIRep, irep := defIRep,
    callinfo_tail := [{ current_regs := 0, pc_irep := defIRep, pc := 0,
                        mid := 4, n_args := 0, target_class := 0 }],
    target_class := 0, flag_preemption := false,
    error_code := 0, vm_id := 1,
    heap := [{ ref_count := 1, vm_id := 1, body := .hinstance 2 [] },
             { ref_count := 1, vm_id := 1,
               body := .hproc false 3 (.mk 2 0 [] [] [] []) 4 }],
    registry := c10Registry,
    symtab := ["Object", "Sup", "Sub", "m"], globals := [], consts := [],
    out := [], allocOk := [] }

/-- `SUPER A=1, C=0`. -/
def c10Code : Nat := mkABC OP_SUPER 1 0 0

/-! # Lemma toolkit -/

theorem getD_set_ne {α} (l : List α) {i j : Nat} (a d : α) (h : j ≠ i) :
    (l.set i a).getD j d = l.getD j d := by
  rw [List.getD_eq_getD_get?, List.getD_eq_getD_get?,
    List.get?_set_ne a l (Ne.symm h)]

theorem getD_set_self {α} (l : List α) {i : Nat} (a d : α) (h : i < l.length) :
    (l.set i a).getD i d = a := by
  rw [List.getD_eq_getD_get?, List.get?_set_eq_of_lt a h]
  rfl

theorem getD_of_length_le {α} (l : List α) {i : Nat} (d : α)
    (h : l.length ≤ i) : l.getD i d = d :=
  List.getD_eq_default l d h

theorem readSlot_writeSlot_ne (s : VMState) {i j : Nat} (v : MrbcValue)
    (h : j ≠ i) : readSlot (writeSlot s i v) j = readSlot s j :=
  getD_set_ne s.regs v zeroVal h

theorem readSlot_writeSlot_self (s : VMState) {i : Nat} (v : MrbcValue)
    (h : i < s.regs.length) : readSlot (writeSlot s i v) i = v :=
  getD_set_self s.regs v zeroVal h

theorem writeSlot_regs_length (s : VMState) (i : Nat) (v : MrbcValue) :
    (writeSlot s i v).regs.length = s.regs.length := by
  simp [writeSlot]

theorem releaseAt_heap (s : VMState) (i : Nat) :
    (releaseAt s i).heap = releaseVal s.heap (readSlot s i) := rfl

theorem releaseAt_regs_length (s : VMState) (i : Nat) :
    (releaseAt s i).regs.length = s.regs.length := by
  simp [releaseAt, writeSlot]

theorem readSlot_releaseAt_self (s : VMState) (i : Nat) :
    (readSlot (releaseAt s i) i).tt = .empty := by
  by_cases h : i < s.regs.length
  · have heq : readSlot (releaseAt s i) i = { readSlot s i with tt := .empty } := by
      simp only [releaseAt]
      exact readSlot_writeSlot_self _ _ (by simpa using h)
    rw [heq]
  · have hlen : s.regs.length ≤ i := Nat.le_of_not_lt h
    simp only [releaseAt, writeSlot, readSlot]
    rw [getD_of_length_le _ _ (by simpa using hlen)]
    rfl

theorem readSlot_releaseAt_ne (s : VMState) {i j : Nat} (h : j ≠ i) :
    readSlot (releaseAt s i) j = readSlot s j :=
  readSlot_writeSlot_ne _ _ h

theorem releaseAt_pc (s : VMState) (i : Nat) : (releaseAt s i).pc = s.pc := rfl

theorem releaseAt_pc_irep (s : VMState) (i : Nat) :
    (releaseAt s i).pc_irep = s.pc_irep := rfl

theorem releaseAt_current_regs (s : VMState) (i : Nat) :
    (releaseAt s i).current_regs = s.current_regs := rfl

theorem releaseAt_callinfo (s : VMState) (i : Nat) :
    (releaseAt s i).callinfo_tail = s.callinfo_tail := rfl

theorem releaseAt_target_class (s : VMState) (i : Nat) :
    (releaseAt s i).target_class = s.target_class := rfl

theorem releaseAt_flag (s : VMState) (i : Nat) :
    (releaseAt s i).flag_preemption = s.flag_preemption := rfl

theorem releaseAt_out (s : VMState) (i : Nat) : (releaseAt s i).out = s.out := rfl

theorem releaseAt_registry (s : VMState) (i : Nat) :
    (releaseAt s i).registry = s.registry := rfl

theorem foldl_congr_mem {α β} {l : List β} {f g : α → β → α} {init : α}
    (h : ∀ b ∈ l, ∀ a, f a b = g a b) : l.foldl f init = l.foldl g init := by
  induction l generalizing init with
  | nil => rfl
  | cons b t ih =>
    simp only [List.foldl]
    rw [h b (List.mem_cons_self b t) init]
    exact ih (fun b hb a => h b (List.mem_cons_of_mem _ hb) a)

theorem releaseAt_tag_empty_preserved (s : VMState) {k : Nat} (j : Nat)
    (h : (readSlot s k).tt = .empty) :
    (readSlot (releaseAt s j) k).tt = .empty := by
  by_cases hkj : k = j
  · subst hkj
    exact readSlot_releaseAt_self s k
  · rw [readSlot_releaseAt_ne s hkj]
    exact h

theorem foldl_releaseAt_tag_preserved (l : List Nat) (s : VMState) (k : Nat)
    (h : (readSlot s k).tt = .empty) :
    (readSlot (l.foldl releaseAt s) k).tt = .empty := by
  induction l generalizing s with
  | nil => exact h
  | cons a t ih =>
    exact ih (releaseAt s a) (releaseAt_tag_empty_preserved s a h)

theorem foldl_releaseAt_tag_mem (l : List Nat) (s : VMState) (k : Nat)
    (h : k ∈ l) : (readSlot (l.foldl releaseAt s) k).tt = .empty := by
  induction l generalizing s with
  | nil => cases h
  | cons a t ih =>
    rcases List.mem_cons.mp h with h1 | h2
    · subst h1
      exact foldl_releaseAt_tag_preserved t (releaseAt s k) k
        (readSlot_releaseAt_self s k)
    · exact ih (releaseAt s a) h2

theorem foldl_releaseAt_readSlot_not_mem (l : List Nat) (s : VMState)
    (k : Nat) (h : k ∉ l) :
    readSlot (l.foldl releaseAt s) k = readSlot s k := by
  induction l generalizing s with
  | nil => rfl
  | cons a t ih =>
    have hka : k ≠ a := fun he => h (he ▸ List.mem_cons_self a t)
    have hkt : k ∉ t := fun ht => h (List.mem_cons_of_mem _ ht)
    simp only [List.foldl]
    rw [ih (releaseAt s a) hkt, readSlot_releaseAt_ne s hka]

theorem foldl_releaseAt_pc (l : List Nat) (s : VMState) :
    (l.foldl releaseAt s).pc = s.pc := by
  induction l generalizing s with
  | nil => rfl
  | cons a t ih => exact ih (releaseAt s a)

theorem foldl_releaseAt_pc_irep (l : List Nat) (s : VMState) :
    (l.foldl releaseAt s).pc_irep = s.pc_irep := by
  induction l generalizing s with
  | nil => rfl
  | cons a t ih => exact ih (releaseAt s a)

theorem foldl_releaseAt_current_regs (l : List Nat) (s : VMState) :
    (l.foldl releaseAt s).current_regs = s.current_regs := by
  induction l generalizing s with
  | nil => rfl
  | cons a t ih => exact ih (releaseAt s a)

theorem foldl_releaseAt_callinfo (l : List Nat) (s : VMState) :
    (l.foldl releaseAt s).callinfo_tail = s.callinfo_tail := by
  induction l generalizing s with
  | nil => rfl
  | cons a t ih => exact ih (releaseAt s a)

theorem foldl_releaseAt_target_class (l : List Nat) (s : VMState) :
    (l.foldl releaseAt s).target_class = s.target_class := by
  induction l generalizing s with
  | nil => rfl
  | cons a t ih => exact ih (releaseAt s a)

theorem foldl_releaseAt_flag (l : List Nat) (s : VMState) :
    (l.foldl releaseAt s).flag_preemption = s.flag_preemption := by
  induction l generalizing s with
  | nil => rfl
  | cons a t ih => exact ih (releaseAt s a)

theorem foldl_releaseAt_heap_fold (l : List Nat) (s : VMState)
    (hl : l.Pairwise (· ≠ ·)) :
    (l.foldl releaseAt s).heap =
      l.foldl (fun h i => releaseVal h (readSlot s i)) s.heap := by
  induction l generalizing s with
  | nil => rfl
  | cons a t ih =>
    have hat : ∀ b ∈ t, a ≠ b := (List.pairwise_cons.mp hl).1
    have htp : t.Pairwise (· ≠ ·) := (List.pairwise_cons.mp hl).2
    simp only [List.foldl]
    rw [ih (releaseAt s a) htp]
    have hread : ∀ b ∈ t, ∀ hp : List HeapCell,
        releaseVal hp (readSlot (releaseAt s a) b) =
        releaseVal hp (readSlot s b) := by
      intro b hb hp
      rw [readSlot_releaseAt_ne s (Ne.symm (hat b hb))]
    rw [foldl_congr_mem hread]
    rfl

theorem releaseAt_restoreFrom (s : VMState) (ci : CallInfo)
    (rest : List CallInfo) (a : Nat) :
    releaseAt (restoreFrom s ci rest) a = restoreFrom (releaseAt s a) ci rest := rfl

theorem foldl_releaseAt_restoreFrom (l : List Nat) (s : VMState)
    (ci : CallInfo) (rest : List CallInfo) :
    l.foldl releaseAt (restoreFrom s ci rest) =
      restoreFrom (l.foldl releaseAt s) ci rest := by
  induction l generalizing s with
  | nil => rfl
  | cons a t ih =>
    simp only [List.foldl]
    rw [releaseAt_restoreFrom, ih (releaseAt s a)]

theorem readSlot_writeZero_self (s : VMState) (i : Nat) :
    readSlot (writeSlot s i zeroVal) i = zeroVal := by
  by_cases h : i < s.regs.length
  · exact readSlot_writeSlot_self s zeroVal h
  · unfold writeSlot readSlot
    exact getD_of_length_le _ _ (by simpa using Nat.le_of_not_lt h)

theorem writeZero_preserved (s : VMState) {k : Nat} (j : Nat)
    (h : readSlot s k = zeroVal) :
    readSlot (writeSlot s j zeroVal) k = zeroVal := by
  by_cases hkj : k = j
  · subst hkj
    exact readSlot_writeZero_self s k
  · rw [readSlot_writeSlot_ne s zeroVal hkj]
    exact h

theorem foldl_writeZero_preserved (l : List Nat) (s : VMState) (k : Nat)
    (h : readSlot s k = zeroVal) :
    readSlot (l.foldl (fun s j => writeSlot s j zeroVal) s) k = zeroVal := by
  induction l generalizing s with
  | nil => exact h
  | cons a t ih => exact ih (writeSlot s a zeroVal) (writeZero_preserved s a h)

theorem foldl_writeZero_mem (l : List Nat) (s : VMState) (k : Nat)
    (h : k ∈ l) :
    readSlot (l.foldl (fun s j => writeSlot s j zeroVal) s) k = zeroVal := by
  induction l generalizing s with
  | nil => cases h
  | cons a t ih =>
    rcases List.mem_cons.mp h with h1 | h2
    · subst h1
      exact foldl_writeZero_preserved t (writeSlot s k zeroVal) k
        (readSlot_writeZero_self s k)
    · exact ih (writeSlot s a zeroVal) h2

theorem foldl_writeZero_not_mem (l : List Nat) (s : VMState) (k : Nat)
    (h : k ∉ l) :
    readSlot (l.foldl (fun s j => writeSlot s j zeroVal) s) k = readSlot s k := by
  induction l generalizing s with
  | nil => rfl
  | cons a t ih =>
    have hka : k ≠ a := fun he => h (he ▸ List.mem_cons_self a t)
    have hkt : k ∉ t := fun ht => h (List.mem_cons_of_mem _ ht)
    simp only [List.foldl]
    rw [ih (writeSlot s a zeroVal) hkt, readSlot_writeSlot_ne s zeroVal hka]

theorem lt_of_get?_some {α} {l : List α} {i : Nat} {a : α}
    (h : l.get? i = some a) : i < l.length := by
  rcases List.get?_eq_some.mp h with ⟨hlt, _⟩
  exact hlt

theorem getD_of_get?_some {α} {l : List α} {i : Nat} {a : α} (d : α)
    (h : l.get? i = some a) : l.getD i d = a := by
  rw [List.getD_eq_getD_get?, h]
  rfl

theorem decRef_zero (heap : List HeapCell) (v : MrbcValue) :
    decRef 0 heap v = heap := rfl

theorem decRef_succ (fuel : Nat) :
    decRef (fuel + 1) = decRefStep (decRef fuel) := rfl

theorem decRef_not_ref (fuel : Nat) (heap : List HeapCell) (v : MrbcValue)
    (h : isRefTag v.tt = false) : decRef fuel heap v = heap := by
  cases fuel with
  | zero => rfl
  | succ fuel => simp [decRef_succ, decRefStep, h]

theorem releaseVal_not_ref (heap : List HeapCell) (v : MrbcValue)
    (h : isRefTag v.tt = false) : releaseVal heap v = heap :=
  decRef_not_ref _ heap v h

theorem dupHeap_not_ref (heap : List HeapCell) (v : MrbcValue)
    (h : isRefTag v.tt = false) : dupHeap heap v = heap := by
  simp [dupHeap, h]

theorem decRef_decrement (fuel : Nat) (heap : List HeapCell) (v : MrbcValue)
    (c : HeapCell) (h1 : isRefTag v.tt = true)
    (h2 : heap.get? v.handle = some c) (h3 : c.ref_count - 1 ≠ 0) :
    decRef (fuel + 1) heap v =
      heap.set v.handle { c with ref_count := c.ref_count - 1 } := by
  rw [List.get?_eq_getElem?] at h2
  simp [decRef_succ, decRefStep, h1, h2, h3]

theorem releaseVal_decrement (heap : List HeapCell) (v : MrbcValue)
    (c : HeapCell) (h1 : isRefTag v.tt = true)
    (h2 : heap.get? v.handle = some c) (h3 : c.ref_count - 1 ≠ 0) :
    releaseVal heap v =
      heap.set v.handle { c with ref_count := c.ref_count - 1 } :=
  decRef_decrement heap.length heap v c h1 h2 h3

theorem dupHeap_body (heap : List HeapCell) (v : MrbcValue) (h : Nat) :
    ((dupHeap heap v).getD h defaultCell).body =
      (heap.getD h defaultCell).body := by
  unfold dupHeap
  by_cases hr : isRefTag v.tt
  · rw [if_pos hr]
    cases hc : heap.get? v.handle with
    | none => rfl
    | some c =>
      by_cases hvh : h = v.handle
      · subst hvh
        rw [getD_set_self _ _ _ (lt_of_get?_some hc),
          getD_of_get?_some defaultCell hc]
      · rw [getD_set_ne _ _ _ hvh]
  · rw [if_neg hr]

theorem dupHeap_length (heap : List HeapCell) (v : MrbcValue) :
    (dupHeap heap v).length = heap.length := by
  unfold dupHeap
  by_cases hr : isRefTag v.tt
  · rw [if_pos hr]
    cases hc : heap.get? v.handle <;> simp
  · rw [if_neg hr]

theorem refCountAt_set_self (heap : List HeapCell) {h : Nat} (c : HeapCell)
    (hlt : h < heap.length) :
    refCountAt (heap.set h c) h = c.ref_count := by
  unfold refCountAt
  rw [getD_set_self _ _ _ hlt]

theorem refCountAt_set_ne (heap : List HeapCell) {h j : Nat} (c : HeapCell)
    (hne : h ≠ j) : refCountAt (heap.set j c) h = refCountAt heap h := by
  unfold refCountAt
  rw [getD_set_ne _ _ _ hne]

theorem refCountAt_append (heap l2 : List HeapCell) {h : Nat}
    (hlt : h < heap.length) :
    refCountAt (heap ++ l2) h = refCountAt heap h := by
  unfold refCountAt
  rw [List.getD_append _ _ _ _ hlt]

theorem refCountAt_setBody (heap : List HeapCell) (j : Nat) (b : HBody)
    (h : Nat) : refCountAt (setBody heap j b) h = refCountAt heap h := by
  unfold setBody
  cases hc : heap.get? j with
  | none => rfl
  | some c =>
    by_cases hj : h = j
    · subst hj
      unfold refCountAt
      rw [getD_set_self _ _ _ (lt_of_get?_some hc),
        getD_of_get?_some defaultCell hc]
    · exact refCountAt_set_ne heap _ hj

theorem foldl_decRef_body_inst (fuel : Nat)
    (ihP : ∀ (heap : List HeapCell) (v : MrbcValue) (h c : Nat)
      (iv : List (Int × MrbcValue)),
      ((decRef fuel heap v).getD h defaultCell).body = HBody.hinstance c iv →
      (heap.getD h defaultCell).body = HBody.hinstance c iv) :
    ∀ (vs : List MrbcValue) (heap : List HeapCell) (h c : Nat)
      (iv : List (Int × MrbcValue)),
      ((vs.foldl (decRef fuel) heap).getD h defaultCell).body =
        HBody.hinstance c iv →
      (heap.getD h defaultCell).body = HBody.hinstance c iv := by
  intro vs
  induction vs with
  | nil => intro heap h c iv hh; exact hh
  | cons w ws ih =>
    intro heap h c iv hh
    exact ihP heap w h c iv (ih (decRef fuel heap w) h c iv hh)

theorem decRef_body_inst : ∀ (fuel : Nat) (heap : List HeapCell)
    (v : MrbcValue) (h c : Nat) (iv : List (Int × MrbcValue)),
    ((decRef fuel heap v).getD h defaultCell).body = HBody.hinstance c iv →
    (heap.getD h defaultCell).body = HBody.hinstance c iv := by
  intro fuel
  induction fuel with
  | zero => intro heap v h c iv hh; exact hh
  | succ fuel ih =>
    intro heap v h c iv hh
    rw [decRef_succ] at hh
    unfold decRefStep at hh
    by_cases hr : isRefTag v.tt
    · rw [if_pos hr] at hh
      cases hc : heap.get? v.handle with
      | none =>
        rw [hc] at hh
        dsimp only at hh
        exact hh
      | some c0 =>
        have hlt := lt_of_get?_some hc
        rw [hc] at hh
        dsimp only at hh
        by_cases hz : c0.ref_count - 1 = 0
        · rw [if_pos hz] at hh
          have h2 := foldl_decRef_body_inst fuel ih _ _ h c iv hh
          by_cases hvh : h = v.handle
          · subst hvh
            rw [getD_set_self _ _ _ hlt] at h2
            cases h2
          · rw [getD_set_ne _ _ _ hvh] at h2
            exact h2
        · rw [if_neg hz] at hh
          by_cases hvh : h = v.handle
          · subst hvh
            rw [getD_set_self _ _ _ hlt] at hh
            rw [getD_of_get?_some defaultCell hc]
            exact hh
          · rw [getD_set_ne _ _ _ hvh] at hh
            exact hh
    · rw [if_neg hr] at hh
      exact hh

theorem releaseVal_body_inst (heap : List HeapCell) (v : MrbcValue)
    {h c : Nat} {iv : List (Int × MrbcValue)}
    (hh : ((releaseVal heap v).getD h defaultCell).body = HBody.hinstance c iv) :
    (heap.getD h defaultCell).body = HBody.hinstance c iv :=
  decRef_body_inst _ heap v h c iv hh

theorem find?_congr {α} {p q : α → Bool} (l : List α) (h : ∀ a, p a = q a) :
    l.find? p = l.find? q := by
  induction l with
  | nil => rfl
  | cons a t ih =>
    rw [List.find?_cons, List.find?_cons, h a, ih]

theorem procSymId_dupHeap (heap : List HeapCell) (v : MrbcValue) (h : Nat) :
    procSymId (dupHeap heap v) h = procSymId heap h := by
  unfold procSymId
  rw [dupHeap_body]

theorem findProcIn_dupHeap (heap : List HeapCell) (v : MrbcValue)
    (procs : List Nat) (sid : Int) :
    findProcIn (dupHeap heap v) procs sid = findProcIn heap procs sid := by
  unfold findProcIn
  exact find?_congr procs (fun a => by rw [procSymId_dupHeap])

theorem findMethodRec_dupHeap (heap : List HeapCell) (v : MrbcValue)
    (reg : List MClass) :
    ∀ (fuel : Nat) (oc : Option Nat) (sid : Int),
      findMethodRec (dupHeap heap v) reg fuel oc sid =
        findMethodRec heap reg fuel oc sid := by
  intro fuel
  induction fuel with
  | zero => intro oc sid; cases oc <;> rfl
  | succ fuel ih =>
    intro oc sid
    cases oc with
    | none => rfl
    | some c =>
      unfold findMethodRec
      simp only [findProcIn_dupHeap, ih]

theorem findMethodRec_mem_chain (heap : List HeapCell) (reg : List MClass) :
    ∀ (fuel : Nat) (oc : Option Nat) (sid : Int) (S ph : Nat),
      findMethodRec heap reg fuel oc sid = some (S, ph) →
      S ∈ superChain reg fuel oc := by
  intro fuel
  induction fuel with
  | zero => intro oc sid S ph hf; cases oc <;> cases hf
  | succ fuel ih =>
    intro oc sid S ph hf
    cases oc with
    | none => cases hf
    | some c =>
      unfold findMethodRec at hf
      dsimp only at hf
      show S ∈ c :: superChain reg fuel (reg.getD c defClass).super
      cases hp : findProcIn heap (reg.getD c defClass).procs sid with
      | some h0 =>
        rw [hp] at hf
        dsimp only at hf
        simp only [Option.some.injEq, Prod.mk.injEq] at hf
        rw [← hf.1]
        exact List.mem_cons_self c _
      | none =>
        rw [hp] at hf
        dsimp only at hf
        exact List.mem_cons_of_mem c (ih _ sid S ph hf)

theorem op_stop_stop_eq (st : VMState) (c : Nat) (h : GET_OPCODE c = OP_STOP) :
    op_stop st c =
      ({ (List.range MAX_REGS_SIZE).foldl releaseAt st with
         flag_preemption := true }, -1) := by
  unfold op_stop
  rw [if_pos h]

theorem op_stop_regs (st : VMState) (c : Nat) (h : GET_OPCODE c = OP_STOP) :
    (op_stop st c).1.regs =
      ((List.range MAX_REGS_SIZE).foldl releaseAt st).regs := by
  rw [op_stop_stop_eq st c h]

theorem op_stop_readSlot (st : VMState) (c : Nat) (h : GET_OPCODE c = OP_STOP)
    (i : Nat) :
    readSlot (op_stop st c).1 i =
      readSlot ((List.range MAX_REGS_SIZE).foldl releaseAt st) i := by
  unfold readSlot
  rw [op_stop_regs st c h]

theorem op_stop_heap (st : VMState) (c : Nat) (h : GET_OPCODE c = OP_STOP) :
    (op_stop st c).1.heap =
      ((List.range MAX_REGS_SIZE).foldl releaseAt st).heap := by
  rw [op_stop_stop_eq st c h]

theorem op_stop_abort_eq (st : VMState) (c : Nat)
    (h : GET_OPCODE c ≠ OP_STOP) :
    op_stop st c = ({ st with flag_preemption := true }, -1) := by
  unfold op_stop
  rw [if_neg h]

/-! # Claim theorems -/

/-- C9: the claim says a sequence of `mrbc_vm_open` calls yields ids in
`1..MAX_VM_COUNT` and the call after `MAX_VM_COUNT` simultaneous opens
returns null.  The code never checks `MAX_VM_COUNT`: the bitmap word offers
32 bits, so with `MAX_VM_COUNT = 5` the sixth call still succeeds and
returns id 6 — contradicting the claim and the `vm_config.h` comment
("maximum number of VMs"). -/
theorem claim_C9_vm_open_bug :
    (vmOpenN 6 (List.replicate vmBitmapWords 0)).2 =
      [some 1, some 2, some 3, some 4, some 5, some 6] ∧
    MAX_VM_COUNT = 5 ∧ MAX_VM_COUNT < 6 := by decide

/-- C1 counterexample: the program `ARRAY R1,R1,1 ; LOADI R5,42 ; ABORT`
run with an exhausted allocator.  The `op_array` handler of the first
instruction returns `-1` (ENOMEM) and does not raise `flag_preemption`, yet
the dispatcher fetches and executes the following instruction (`pc`
reaches 3 and `R(5)` receives 42) — refuting the claim that a non-zero
handler return value stops the fetch-decode-execute loop. -/
theorem claim_C1_counterexample :
    (vmStep trivialNatives c1St 0).2 = -1 ∧
    (vmStep trivialNatives c1St 0).1.flag_preemption = false ∧
    ((mrbc_vm_run trivialNatives 3 c1St 0).1.regs.getD 5 zeroVal).tt = .fixnum ∧
    ((mrbc_vm_run trivialNatives 3 c1St 0).1.regs.getD 5 zeroVal).i = 42 ∧
    (mrbc_vm_run trivialNatives 3 c1St 0).1.pc = 3 := by decide

/-- C1 (amended): the dispatcher loop of `mrbc_vm_run` keeps fetching while
`flag_preemption` is clear, even when the last handler returned a non-zero
value; a non-zero return only becomes the loop's running return value.  (An
allocation failure therefore does not stop the VM by itself.) -/
theorem claim_C1_loop_continues (nt : NativeTable) (st : VMState)
    (fuel : Nat) (ret : Int) (hret : (vmStep nt st ret).2 ≠ 0)
    (hflag : (vmStep nt st ret).1.flag_preemption = false) :
    mrbc_vm_run nt (fuel + 1) st ret =
      mrbc_vm_run nt fuel (vmStep nt st ret).1 (vmStep nt st ret).2 := by
  show (let p := vmStep nt st ret
    if p.1.flag_preemption then ({ p.1 with flag_preemption := false }, p.2)
    else mrbc_vm_run nt fuel p.1 p.2) = _
  rw [if_neg (by rw [hflag]; exact Bool.false_ne_true)]

/-- C1 witness: the amended theorem applied to the concrete ENOMEM program
of the counterexample state. -/
theorem claim_C1_witness :
    mrbc_vm_run trivialNatives 3 c1St 0 =
      mrbc_vm_run trivialNatives 2 (vmStep trivialNatives c1St 0).1
        (vmStep trivialNatives c1St 0).2 :=
  claim_C1_loop_continues trivialNatives c1St 2 0 (by decide) (by decide)

/-- C8: `OP_STOP` sets the preemption flag, returns `-1`, leaves every one
of the `MAX_REGS_SIZE` register-file slots with tag EMPTY and its heap
effect is exactly the in-order release of each slot's prior content;
`OP_ABORT` sets the flag and returns `-1` while leaving the register file
and the heap untouched. -/
theorem claim_C8_stop_abort (st : VMState) (c1 c2 : Nat)
    (h1 : GET_OPCODE c1 = OP_STOP) (h2 : GET_OPCODE c2 = OP_ABORT) :
    ((op_stop st c1).1.flag_preemption = true ∧ (op_stop st c1).2 = -1 ∧
      (∀ i, i < MAX_REGS_SIZE →
        ((op_stop st c1).1.regs.getD i zeroVal).tt = .empty) ∧
      (op_stop st c1).1.heap =
        (List.range MAX_REGS_SIZE).foldl
          (fun h i => releaseVal h (readSlot st i)) st.heap) ∧
    ((op_stop st c2).1.flag_preemption = true ∧ (op_stop st c2).2 = -1 ∧
      (op_stop st c2).1.regs = st.regs ∧ (op_stop st c2).1.heap = st.heap) := by
  have hne : GET_OPCODE c2 ≠ OP_STOP := by
    rw [h2]
    decide
  constructor
  · refine ⟨?_, ?_, ?_, ?_⟩
    · rw [op_stop_stop_eq st c1 h1]
    · rw [op_stop_stop_eq st c1 h1]
    · intro i hi
      have hr := op_stop_readSlot st c1 h1 i
      unfold readSlot at hr
      rw [hr]
      exact foldl_releaseAt_tag_mem (List.range MAX_REGS_SIZE) st i
        (List.mem_range.mpr hi)
    · rw [op_stop_heap st c1 h1]
      exact foldl_releaseAt_heap_fold (List.range MAX_REGS_SIZE) st
        ((List.pairwise_lt_range MAX_REGS_SIZE).imp Nat.ne_of_lt)
  · rw [op_stop_abort_eq st c2 hne]
    exact ⟨rfl, rfl, rfl, rfl⟩

/-- C8 witness: the theorem applied to a concrete state and the two
concrete STOP/ABORT code words. -/
theorem claim_C8_witness :
    (op_stop c1St (mkABC OP_STOP 0 0 0)).1.flag_preemption = true ∧
    (op_stop c1St (mkABC OP_ABORT 0 0 0)).1.regs = c1St.regs := by
  have h := claim_C8_stop_abort c1St (mkABC OP_STOP 0 0 0)
    (mkABC OP_ABORT 0 0 0) (by decide) (by decide)
  exact ⟨h.1.1, h.2.2.2.1⟩

/-- C6: for values of different tags, `mrbc_compare` follows the spec's
cross-tag rule (`compareSpecDiffTag`): an EMPTY/NIL mix is equal, a
fixnum/float mix compares numerically after promotion, and every other
mixed pair returns the difference of the tags — so the sign of the result
follows the total tag order. -/
theorem claim_C6_compare (acmp scmp rcmp hcmp : MrbcValue → MrbcValue → Int)
    (v1 v2 : MrbcValue) (h : v1.tt ≠ v2.tt) :
    mrbc_compare acmp scmp rcmp hcmp v1 v2 = compareSpecDiffTag v1 v2 ∧
    (¬ ((v1.tt = .empty ∧ v2.tt = .nil) ∨ (v1.tt = .nil ∧ v2.tt = .empty)) →
      ¬ (v1.tt = .fixnum ∧ v2.tt = .float) →
      ¬ (v1.tt = .float ∧ v2.tt = .fixnum) →
      mrbc_compare acmp scmp rcmp hcmp v1 v2 = ttVal v1.tt - ttVal v2.tt ∧
      (mrbc_compare acmp scmp rcmp hcmp v1 v2 < 0 ↔
        ttVal v1.tt < ttVal v2.tt)) := by
  obtain ⟨t1, i1, d1, h1, s1⟩ := v1
  obtain ⟨t2, i2, d2, h2, s2⟩ := v2
  cases t1 <;> cases t2 <;>
    simp_all [mrbc_compare, compareSpecDiffTag, ttVal, cmpFloat]

/-- C6 witness: a SYMBOL/HASH pair follows the tag-difference rule. -/
theorem claim_C6_witness :
    mrbc_compare (fun _ _ => 0) (fun _ _ => 0) (fun _ _ => 0)
      (fun _ _ => 0) c6v1 c6v2 = compareSpecDiffTag c6v1 c6v2 :=
  (claim_C6_compare _ _ _ _ c6v1 c6v2 (by decide)).1

theorem dupAt_regs (s : VMState) (i : Nat) : (dupAt s i).regs = s.regs := rfl

theorem dupAt_heap (s : VMState) (i : Nat) :
    (dupAt s i).heap = dupHeap s.heap (readSlot s i) := rfl

theorem readSlot_dupAt (s : VMState) (i j : Nat) :
    readSlot (dupAt s i) j = readSlot s j := rfl

theorem writeSlot_heap (s : VMState) (i : Nat) (v : MrbcValue) :
    (writeSlot s i v).heap = s.heap := rfl

/-- C7: `GETUPVAR A B C` and `SETUPVAR A B C` follow exactly `C*2 + 1`
prev links from the call-info tail (modelled as the list element at index
`C*2 + 1`), then access slot `B` of that frame's register base: GETUPVAR
releases `R(A)`, duplicates the up-value read and copies it into `R(A)`;
SETUPVAR releases the up-slot first, duplicates `R(A)` and copies it into
the up-slot. -/
theorem claim_C7_upvar (st : VMState) (c : Nat) (fr : CallInfo)
    (hfr : st.callinfo_tail.get? (GETARG_C c * 2 + 1) = some fr)
    (hne : fr.current_regs + GETARG_B c ≠ st.current_regs + GETARG_A c)
    (hlt1 : st.current_regs + GETARG_A c < st.regs.length)
    (hlt2 : fr.current_regs + GETARG_B c < st.regs.length) :
    (readSlot (op_getupvar st c).1 (st.current_regs + GETARG_A c) =
       readSlot st (fr.current_regs + GETARG_B c) ∧
     (op_getupvar st c).1.heap =
       dupHeap
         (releaseVal st.heap (readSlot st (st.current_regs + GETARG_A c)))
         (readSlot st (fr.current_regs + GETARG_B c))) ∧
    (readSlot (op_setupvar st c).1 (fr.current_regs + GETARG_B c) =
       readSlot st (st.current_regs + GETARG_A c) ∧
     (op_setupvar st c).1.heap =
       dupHeap
         (releaseVal st.heap (readSlot st (fr.current_regs + GETARG_B c)))
         (readSlot st (st.current_regs + GETARG_A c))) := by
  have hgd : st.callinfo_tail.getD (GETARG_C c * 2 + 1) defCI = fr :=
    getD_of_get?_some defCI hfr
  have hne2 : st.current_regs + GETARG_A c ≠ fr.current_regs + GETARG_B c :=
    Ne.symm hne
  refine ⟨⟨?_, ?_⟩, ⟨?_, ?_⟩⟩
  · unfold op_getupvar
    dsimp only
    rw [hgd]
    have hlen : st.current_regs + GETARG_A c <
        (dupAt (releaseAt st (st.current_regs + GETARG_A c))
          (fr.current_regs + GETARG_B c)).regs.length := by
      rw [dupAt_regs, releaseAt_regs_length]
      exact hlt1
    rw [readSlot_writeSlot_self _ _ hlen, readSlot_dupAt,
      readSlot_releaseAt_ne st hne]
  · unfold op_getupvar
    dsimp only
    rw [hgd, writeSlot_heap, dupAt_heap,
      readSlot_releaseAt_ne st hne, releaseAt_heap]
  · unfold op_setupvar
    dsimp only
    rw [hgd]
    have hlen : fr.current_regs + GETARG_B c <
        (dupAt (releaseAt st (fr.current_regs + GETARG_B c))
          (st.current_regs + GETARG_A c)).regs.length := by
      rw [dupAt_regs, releaseAt_regs_length]
      exact hlt2
    rw [readSlot_writeSlot_self _ _ hlen, readSlot_dupAt,
      readSlot_releaseAt_ne st hne2]
  · unfold op_setupvar
    dsimp only
    rw [hgd, writeSlot_heap, dupAt_heap,
      readSlot_releaseAt_ne st hne2, releaseAt_heap]

/-- C7 witness: the theorem applied to the two-frame state `c7St` with
`A=2 B=1 C=0` — the walk lands on the second frame (base 4). -/
theorem claim_C7_witness :
    readSlot (op_getupvar c7St c7Code).1 2 = readSlot c7St 5 ∧
    readSlot (op_setupvar c7St c7Code).1 5 = readSlot c7St 2 := by
  have h := claim_C7_upvar c7St c7Code
    { current_regs := 4, pc_irep := defIRep, pc := 0, mid := 0, n_args := 0,
      target_class := 0 }
    rfl (by decide) (by decide) (by decide)
  exact ⟨h.1.1, h.2.1⟩

theorem allocTake_regs (st : VMState) : (allocTake st).2.regs = st.regs := by
  unfold allocTake
  cases st.allocOk <;> rfl

theorem allocTake_heap (st : VMState) : (allocTake st).2.heap = st.heap := by
  unfold allocTake
  cases st.allocOk <;> rfl

theorem allocTake_current_regs (st : VMState) :
    (allocTake st).2.current_regs = st.current_regs := by
  unfold allocTake
  cases st.allocOk <;> rfl

theorem allocTake_vm_id (st : VMState) : (allocTake st).2.vm_id = st.vm_id := by
  unfold allocTake
  cases st.allocOk <;> rfl

theorem readSlot_eq_of_regs {s s' : VMState} (h : s.regs = s'.regs)
    (i : Nat) : readSlot s i = readSlot s' i := by
  unfold readSlot
  rw [h]

theorem foldl_writeZero_heap (l : List Nat) (s : VMState) :
    (l.foldl (fun s j => writeSlot s j zeroVal) s).heap = s.heap := by
  induction l generalizing s with
  | nil => rfl
  | cons a t ih => exact ih (writeSlot s a zeroVal)

theorem foldl_writeZero_regs_length (l : List Nat) (s : VMState) :
    (l.foldl (fun s j => writeSlot s j zeroVal) s).regs.length =
      s.regs.length := by
  induction l generalizing s with
  | nil => rfl
  | cons a t ih =>
    rw [List.foldl_cons, ih (writeSlot s a zeroVal), writeSlot_regs_length]

theorem foldl_releaseAt_regs_length (l : List Nat) (s : VMState) :
    (l.foldl releaseAt s).regs.length = s.regs.length := by
  induction l generalizing s with
  | nil => rfl
  | cons a t ih =>
    rw [List.foldl_cons, ih (releaseAt s a), releaseAt_regs_length]

theorem setBody_getD_self (heap : List HeapCell) {h : Nat} (b : HBody)
    (c : HeapCell) (hc : heap.get? h = some c) :
    (setBody heap h b).getD h defaultCell = { c with body := b } := by
  unfold setBody
  rw [hc]
  exact getD_set_self _ _ _ (lt_of_get?_some hc)

theorem getD_append_self (l : List HeapCell) (c : HeapCell) :
    (l ++ [c]).getD l.length defaultCell = c := by
  rw [List.getD_append_right _ _ _ _ (Nat.le_refl _), Nat.sub_self]
  rfl

theorem get?_append_self (l : List HeapCell) (c : HeapCell) :
    (l ++ [c]).get? l.length = some c := by
  rw [List.get?_concat_length]

theorem foldl_writeZeroOff_heap (l : List Nat) (off : Nat) (s : VMState) :
    (l.foldl (fun s j => writeSlot s (off + j) zeroVal) s).heap = s.heap := by
  induction l generalizing s with
  | nil => rfl
  | cons a t ih => exact ih (writeSlot s (off + a) zeroVal)

theorem foldl_writeZeroOff_regs_length (l : List Nat) (off : Nat)
    (s : VMState) :
    (l.foldl (fun s j => writeSlot s (off + j) zeroVal) s).regs.length =
      s.regs.length := by
  induction l generalizing s with
  | nil => rfl
  | cons a t ih =>
    rw [List.foldl_cons, ih (writeSlot s (off + a) zeroVal),
      writeSlot_regs_length]

theorem foldl_writeZeroOff_preserved (l : List Nat) (off : Nat) (s : VMState)
    (k : Nat) (h : readSlot s k = zeroVal) :
    readSlot (l.foldl (fun s j => writeSlot s (off + j) zeroVal) s) k =
      zeroVal := by
  induction l generalizing s with
  | nil => exact h
  | cons a t ih =>
    exact ih (writeSlot s (off + a) zeroVal) (writeZero_preserved s (off + a) h)

theorem foldl_writeZeroOff_mem (l : List Nat) (off : Nat) (s : VMState)
    {j0 : Nat} (hj : j0 ∈ l) :
    readSlot (l.foldl (fun s j => writeSlot s (off + j) zeroVal) s)
      (off + j0) = zeroVal := by
  induction l generalizing s with
  | nil => cases hj
  | cons a t ih =>
    rcases List.mem_cons.mp hj with h1 | h2
    · subst h1
      exact foldl_writeZeroOff_preserved t off (writeSlot s (off + j0) zeroVal)
        (off + j0) (readSlot_writeZero_self s (off + j0))
    · exact ih (writeSlot s (off + a) zeroVal) h2

theorem foldl_writeZeroOff_not_mem (l : List Nat) (off : Nat) (s : VMState)
    (k : Nat) (h : ∀ j ∈ l, off + j ≠ k) :
    readSlot (l.foldl (fun s j => writeSlot s (off + j) zeroVal) s) k =
      readSlot s k := by
  induction l generalizing s with
  | nil => rfl
  | cons a t ih =>
    simp only [List.foldl]
    rw [ih (writeSlot s (off + a) zeroVal)
      (fun j hj => h j (List.mem_cons_of_mem _ hj)),
      readSlot_writeSlot_ne s zeroVal
        (fun he => h a (List.mem_cons_self a t) he.symm)]

theorem fold_release_heap_id (st0 stB : VMState) (off idx rc : Nat)
    (hregs : stB.regs = st0.regs)
    (hv : (∃ j, j < rc ∧ off + j = idx) ∨
          isRefTag (readSlot st0 idx).tt = false) :
    (releaseAt
      ((List.range rc).foldl (fun s j => writeSlot s (off + j) zeroVal) stB)
      idx).heap = stB.heap := by
  rw [releaseAt_heap, foldl_writeZeroOff_heap]
  by_cases hmem : ∃ j, j < rc ∧ off + j = idx
  · obtain ⟨j0, hj0, hje⟩ := hmem
    rw [← hje,
      foldl_writeZeroOff_mem (List.range rc) off stB (List.mem_range.mpr hj0)]
    exact releaseVal_not_ref _ _ rfl
  · have hnm : ∀ j ∈ List.range rc, off + j ≠ idx := by
      intro j hj he
      exact hmem ⟨j, List.mem_range.mp hj, he⟩
    rw [foldl_writeZeroOff_not_mem (List.range rc) off stB idx hnm]
    rcases hv with h1 | h2
    · exact absurd h1 hmem
    · refine releaseVal_not_ref _ _ ?_
      rw [readSlot_eq_of_regs hregs idx]
      exact h2

/-- C5 (amended): a successful `ARRAY A B C` stores into `R(A)` a fresh
array cell (refcount 1) holding exactly the `C` values previously in
`R(B)..R(B+C-1)` in order; every source slot other than `R(A)` is zeroed
(tag EMPTY, zero payload); the reference counts of all pre-existing heap
cells — in particular of every moved value's cell — are unchanged.  (When
`A` lies inside the source range, `R(A)` holds the array rather than EMPTY,
which is where the claim as stated fails.)  The hypothesis `hpr` says the
destination either lies in the source range or held no heap reference. -/
theorem claim_C5_array (st : VMState) (code : Nat)
    (halloc : (allocTake st).1 = true)
    (hpr : (GETARG_B code ≤ GETARG_A code ∧
            GETARG_A code < GETARG_B code + GETARG_C code) ∨
           isRefTag (readSlot st (st.current_regs + GETARG_A code)).tt = false)
    (hlt : st.current_regs + GETARG_A code < st.regs.length) :
    (op_array st code).2 = 0 ∧
    readSlot (op_array st code).1 (st.current_regs + GETARG_A code) =
      { tt := .array, handle := st.heap.length } ∧
    ((op_array st code).1.heap.getD st.heap.length defaultCell).body =
      .harray ((List.range (GETARG_C code)).map
        (fun j => readSlot st (st.current_regs + GETARG_B code + j))) ∧
    refCountAt (op_array st code).1.heap st.heap.length = 1 ∧
    (∀ j, j < GETARG_C code →
      st.current_regs + GETARG_B code + j ≠ st.current_regs + GETARG_A code →
      readSlot (op_array st code).1 (st.current_regs + GETARG_B code + j) =
        zeroVal) ∧
    (∀ h, h < st.heap.length →
      refCountAt (op_array st code).1.heap h = refCountAt st.heap h) := by
  have hnew : mrbc_array_new st (GETARG_C code) =
      (some st.heap.length,
       { (allocTake st).2 with heap := st.heap ++
         [{ ref_count := 1, vm_id := (allocTake st).2.vm_id,
            body := .harray (List.replicate (GETARG_C code) zeroVal) }] }) := by
    unfold mrbc_array_new
    dsimp only
    rw [if_pos halloc, allocTake_heap]
  unfold op_array
  dsimp only
  rw [hnew]
  dsimp only
  refine ⟨rfl, ?_, ?_, ?_, ?_, ?_⟩
  · rw [readSlot_writeSlot_self]
    rw [releaseAt_regs_length, foldl_writeZeroOff_regs_length]
    show st.current_regs + GETARG_A code < (allocTake st).2.regs.length
    rw [allocTake_regs]
    exact hlt
  · rw [writeSlot_heap, fold_release_heap_id st]
    · rw [setBody_getD_self _ _ _ (get?_append_self st.heap _)]
      show HBody.harray _ = _
      refine congrArg HBody.harray (List.map_congr_left ?_)
      intro j _
      exact readSlot_eq_of_regs (allocTake_regs st) _
    · exact allocTake_regs st
    · rcases hpr with h1 | h2
      · exact Or.inl ⟨GETARG_A code - GETARG_B code, by omega, by omega⟩
      · exact Or.inr h2
  · rw [writeSlot_heap, fold_release_heap_id st]
    · rw [refCountAt_setBody]
      unfold refCountAt
      rw [getD_append_self]
    · exact allocTake_regs st
    · rcases hpr with h1 | h2
      · exact Or.inl ⟨GETARG_A code - GETARG_B code, by omega, by omega⟩
      · exact Or.inr h2
  · intro j hj hne
    rw [readSlot_writeSlot_ne _ _ hne, readSlot_releaseAt_ne _ hne]
    exact foldl_writeZeroOff_mem (List.range (GETARG_C code)) _ _
      (List.mem_range.mpr hj)
  · intro h hh
    rw [writeSlot_heap, fold_release_heap_id st]
    · rw [refCountAt_setBody]
      exact refCountAt_append st.heap _ hh
    · exact allocTake_regs st
    · rcases hpr with h1 | h2
      · exact Or.inl ⟨GETARG_A code - GETARG_B code, by omega, by omega⟩
      · exact Or.inr h2

/-- C5 witness: `ARRAY R1, R2, 3` on 10,20,30 — `R(1)` receives the new
array cell with refcount 1 and the sources are zeroed. -/
theorem claim_C5_witness :
    readSlot (op_array c5St c5Code).1 1 = { tt := .array, handle := 1 } ∧
    refCountAt (op_array c5St c5Code).1.heap 1 = 1 ∧
    readSlot (op_array c5St c5Code).1 2 = zeroVal := by
  have h := claim_C5_array c5St c5Code (by decide) (Or.inr (by decide))
    (by decide)
  exact ⟨h.2.1, h.2.2.2.1, h.2.2.2.2.1 0 (by decide) (by decide)⟩

/-- C5 counterexample: the spec's own scenario `ARRAY R1, R1, 3` — the
destination lies in the source range, so source slot `R(1)` afterwards
holds the ARRAY value, not EMPTY, refuting the claim that all `C` source
slots are EMPTY afterwards (the array contents are nevertheless the three
moved values). -/
theorem claim_C5_counterexample :
    (readSlot (op_array c5bSt c5bCode).1 1).tt = .array ∧
    (readSlot (op_array c5bSt c5bCode).1 1).tt ≠ .empty ∧
    ((op_array c5bSt c5bCode).1.heap.getD 0 defaultCell).body =
      .harray [{ tt := .fixnum, i := 10 }, { tt := .fixnum, i := 20 },
               { tt := .fixnum, i := 30 }] :=
  ⟨by decide, by decide, rfl⟩

theorem foldl_releaseOff_heapless (l : List Nat) (off : Nat) (s : VMState)
    (k : Nat) (h : ∀ j ∈ l, off + j ≠ k) :
    readSlot (l.foldl (fun s j => releaseAt s (off + j)) s) k =
      readSlot s k := by
  induction l generalizing s with
  | nil => rfl
  | cons a t ih =>
    simp only [List.foldl]
    rw [ih (releaseAt s (off + a)) (fun j hj => h j (List.mem_cons_of_mem _ hj)),
      readSlot_releaseAt_ne s (fun he => h a (List.mem_cons_self a t) he.symm)]

theorem foldl_releaseOff_tag_preserved (l : List Nat) (off : Nat)
    (s : VMState) (k : Nat) (h : (readSlot s k).tt = .empty) :
    (readSlot (l.foldl (fun s j => releaseAt s (off + j)) s) k).tt =
      .empty := by
  induction l generalizing s with
  | nil => exact h
  | cons a t ih =>
    exact ih (releaseAt s (off + a))
      (releaseAt_tag_empty_preserved s (off + a) h)

theorem foldl_releaseOff_tag_mem (l : List Nat) (off : Nat) (s : VMState)
    {j0 : Nat} (hj : j0 ∈ l) :
    (readSlot (l.foldl (fun s j => releaseAt s (off + j)) s) (off + j0)).tt =
      .empty := by
  induction l generalizing s with
  | nil => cases hj
  | cons a t ih =>
    rcases List.mem_cons.mp hj with h1 | h2
    · subst h1
      exact foldl_releaseOff_tag_preserved t off
        (releaseAt s (off + j0)) (off + j0) (readSlot_releaseAt_self s _)
    · exact ih (releaseAt s (off + a)) h2

theorem releaseAtOff_restoreFrom (s : VMState) (ci : CallInfo)
    (rest : List CallInfo) (k : Nat) :
    releaseAt (restoreFrom s ci rest) k = restoreFrom (releaseAt s k) ci rest := rfl

theorem releaseLoop_restoreFrom (s : VMState) (ci : CallInfo)
    (rest : List CallInfo) (base i n : Nat) :
    releaseLoop (restoreFrom s ci rest) base i n =
      restoreFrom (releaseLoop s base i n) ci rest := by
  unfold releaseLoop
  generalize List.range' i (n - i) = l
  induction l generalizing s with
  | nil => rfl
  | cons a t ih =>
    simp only [List.foldl]
    rw [releaseAtOff_restoreFrom, ih (releaseAt s (base + a))]

theorem restoreFrom_regs (s : VMState) (ci : CallInfo)
    (rest : List CallInfo) : (restoreFrom s ci rest).regs = s.regs := rfl

theorem readSlot_restoreFrom (s : VMState) (ci : CallInfo)
    (rest : List CallInfo) (k : Nat) :
    readSlot (restoreFrom s ci rest) k = readSlot s k := rfl

theorem releaseLoop_readSlot_lt (s : VMState) (base n k : Nat)
    (hk : ∀ j, 1 ≤ j → j < n → base + j ≠ k) :
    readSlot (releaseLoop s base 1 n) k = readSlot s k := by
  unfold releaseLoop
  refine foldl_releaseOff_heapless _ base s k ?_
  intro j hj
  rcases List.mem_range'_1.mp hj with ⟨h1, h2⟩
  exact hk j h1 (by omega)

theorem releaseLoop_tag_preserved (s : VMState) (base n k : Nat)
    (h : (readSlot s k).tt = .empty) :
    (readSlot (releaseLoop s base 1 n) k).tt = .empty := by
  unfold releaseLoop
  exact foldl_releaseOff_tag_preserved _ base s k h

theorem releaseLoop_tag_mem (s : VMState) (base n j : Nat) (h1 : 1 ≤ j)
    (h2 : j < n) :
    (readSlot (releaseLoop s base 1 n) (base + j)).tt = .empty := by
  unfold releaseLoop
  exact foldl_releaseOff_tag_mem _ base s
    (List.mem_range'_1.mpr ⟨h1, by omega⟩)

theorem writeSlot_callinfo (s : VMState) (i : Nat) (v : MrbcValue) :
    (writeSlot s i v).callinfo_tail = s.callinfo_tail := rfl

theorem writeSlot_pc_irep (s : VMState) (i : Nat) (v : MrbcValue) :
    (writeSlot s i v).pc_irep = s.pc_irep := rfl

/-- C4 (amended): `RETURN A B` with `B = NORMAL` and a non-empty call-info
stack moves `R(A)` into `R(0)`, marks the source slot EMPTY, releases the
callee-window slots `R(1)` through `R(nregs - 1)` (`nregs` from the
returning method's IREP; the slot `R(nregs)` itself is NOT released — the
loop is `i < nregs`), pops exactly one frame and restores the caller's
`(ip, irep, base, target_class)`; the whole handler equals the claim-shaped
`op_return_normal_spec`. -/
theorem claim_C4_return (st : VMState) (code : Nat) (ci : CallInfo)
    (rest : List CallInfo) (hci : st.callinfo_tail = ci :: rest)
    (hb : GETARG_B code = OP_R_NORMAL)
    (ha : 1 ≤ GETARG_A code)
    (hlt0 : st.current_regs < st.regs.length)
    (hltra : st.current_regs + GETARG_A code < st.regs.length) :
    op_return st code = (op_return_normal_spec st code, 0) ∧
    readSlot (op_return st code).1 (st.current_regs + 0) =
      readSlot st (st.current_regs + GETARG_A code) ∧
    (readSlot (op_return st code).1
      (st.current_regs + GETARG_A code)).tt = .empty ∧
    (∀ i, 1 ≤ i → i < st.pc_irep.nregs →
      (readSlot (op_return st code).1 (st.current_regs + i)).tt = .empty) ∧
    (op_return st code).1.callinfo_tail = rest ∧
    (op_return st code).1.pc = ci.pc ∧
    (op_return st code).1.pc_irep = ci.pc_irep ∧
    (op_return st code).1.current_regs = ci.current_regs ∧
    (op_return st code).1.target_class = ci.target_class := by
  have hra0 : st.current_regs + GETARG_A code ≠ st.current_regs + 0 := by
    omega
  unfold op_return
  dsimp only
  rw [if_pos hb]
  simp only [writeSlot_callinfo, releaseAt_callinfo, writeSlot_pc_irep,
    releaseAt_pc_irep]
  rw [hci]
  simp only [List.headD_cons, List.tail_cons]
  rw [show ∀ (s : VMState),
      ({ s with
         callinfo_tail := rest, current_regs := ci.current_regs,
         pc_irep := ci.pc_irep, pc := ci.pc,
         target_class := ci.target_class } : VMState) =
        restoreFrom s ci rest from fun s => rfl]
  rw [releaseLoop_restoreFrom]
  refine ⟨?_, ?_, ?_, ?_, rfl, rfl, rfl, rfl, rfl⟩
  · unfold op_return_normal_spec
    dsimp only
    rw [hci]
    simp only [List.headD_cons, List.tail_cons]
  · rw [readSlot_restoreFrom, releaseLoop_readSlot_lt _ _ _ _
      (fun j h1 _ => by omega)]
    rw [readSlot_writeSlot_ne _ _ (Ne.symm hra0)]
    rw [readSlot_writeSlot_self _ _ (by
      rw [releaseAt_regs_length]
      exact hlt0)]
    rw [readSlot_releaseAt_ne st hra0]
  · rw [readSlot_restoreFrom]
    refine releaseLoop_tag_preserved _ _ _ _ ?_
    have hlen : st.current_regs + GETARG_A code <
        (writeSlot (releaseAt st (st.current_regs + 0))
          (st.current_regs + 0)
          (readSlot (releaseAt st (st.current_regs + 0))
            (st.current_regs + GETARG_A code))).regs.length := by
      rw [writeSlot_regs_length, releaseAt_regs_length]
      exact hltra
    rw [readSlot_writeSlot_self _ _ hlen]
  · intro i h1 h2
    rw [readSlot_restoreFrom]
    exact releaseLoop_tag_mem _ _ _ _ h1 h2
/-- C4 witness: `RETURN R1, NORMAL` on a concrete state with one frame to
pop and `nregs = 3` — value moved, source emptied, `R(1)`,`R(2)` released,
frame popped, caller state restored. -/
theorem claim_C4_witness :
    op_return c4St c4Code = (op_return_normal_spec c4St c4Code, 0) ∧
    readSlot (op_return c4St c4Code).1 0 = readSlot c4St 1 ∧
    (readSlot (op_return c4St c4Code).1 1).tt = .empty ∧
    (readSlot (op_return c4St c4Code).1 2).tt = .empty ∧
    (op_return c4St c4Code).1.callinfo_tail = [] ∧
    (op_return c4St c4Code).1.pc = 5 ∧
    (op_return c4St c4Code).1.current_regs = 2 ∧
    (op_return c4St c4Code).1.target_class = 3 := by
  have h := claim_C4_return c4St c4Code
    { current_regs := 2, pc_irep := defIRep, pc := 5,
      mid := 0, n_args := 0, target_class := 3 } [] rfl
    (by decide) (by decide) (by decide) (by decide)
  exact ⟨h.1, h.2.1, h.2.2.1, h.2.2.2.1 2 (by decide) (by decide),
    h.2.2.2.2.1, h.2.2.2.2.2.1, h.2.2.2.2.2.2.2.1, h.2.2.2.2.2.2.2.2⟩

/-- C4 counterexample: with `nregs = 2`, the release loop is
`for (i = 1; i < nregs; i++)`, so slot `R(nregs) = R(2)` is NOT released —
it still holds its array value (refcount 1) after the return, refuting
the claim that slots `R(1)` through `R(nregs)` are all released. -/
theorem claim_C4_counterexample :
    c4bIrep.nregs = 2 ∧
    (readSlot (op_return c4bSt c4bCode).1 2).tt = .array ∧
    (readSlot (op_return c4bSt c4bCode).1 2).tt ≠ .empty ∧
    refCountAt (op_return c4bSt c4bCode).1.heap 0 = 1 :=
  ⟨rfl, by decide, by decide, by decide⟩

theorem set_append_self_cell (l : List HeapCell) (c d : HeapCell) :
    (l ++ [c]).set l.length d = l ++ [d] := by
  induction l with
  | nil => rfl
  | cons x t ih =>
    simp only [List.cons_append, List.length_cons, List.set_cons_succ]
    rw [ih]

theorem setBody_append_self (l : List HeapCell) (c : HeapCell) (b : HBody) :
    setBody (l ++ [c]) l.length b = l ++ [{ c with body := b }] := by
  unfold setBody
  rw [get?_append_self]
  exact set_append_self_cell l c _

theorem foldl_writeZero_release_heap (st0 stB : VMState) (off k rc : Nat)
    (hregs : stB.regs = st0.regs)
    (hnm : ∀ j, j < rc → off + j ≠ k) :
    (releaseAt
      ((List.range rc).foldl (fun s j => writeSlot s (off + j) zeroVal) stB)
      k).heap = releaseVal stB.heap (readSlot st0 k) := by
  rw [releaseAt_heap, foldl_writeZeroOff_heap,
    foldl_writeZeroOff_not_mem _ _ _ _
      (fun j hj => hnm j (List.mem_range.mp hj)),
    readSlot_eq_of_regs hregs]

/-- C3 (amended): the release-before-assignment invariant holds for the
storing handlers MOVE, LOADL, LOADI, LOADSELF, GETGLOBAL, GETUPVAR, TCLASS
(their entire heap effect is exactly the release of the destination slot's
prior content, under side conditions making every other operand
reference-free so no other refcount traffic occurs), and for ARRAY and
RANGE (which release the prior `R(A)` on the allocation-extended heap
before storing).  CLASS violates the invariant — see the counterexample. -/
theorem claim_C3_release (st : VMState) :
    (∀ c, isRefTag (readSlot st (st.current_regs + GETARG_B c)).tt = false →
      (op_move st c).1.heap =
        releaseVal st.heap (readSlot st (st.current_regs + GETARG_A c))) ∧
    (∀ c, (op_loadl st c).1.heap =
      releaseVal st.heap (readSlot st (st.current_regs + GETARG_A c))) ∧
    (∀ c, (op_loadi st c).1.heap =
      releaseVal st.heap (readSlot st (st.current_regs + GETARG_A c))) ∧
    (∀ c, isRefTag (readSlot st (st.current_regs + 0)).tt = false →
      (op_loadself st c).1.heap =
        releaseVal st.heap (readSlot st (st.current_regs + GETARG_A c))) ∧
    (∀ c, st.globals = [] →
      (op_getglobal st c).1.heap =
        releaseVal st.heap (readSlot st (st.current_regs + GETARG_A c))) ∧
    (∀ c, isRefTag (readSlot st
        ((st.callinfo_tail.getD (GETARG_C c * 2 + 1) defCI).current_regs +
          GETARG_B c)).tt = false →
      (op_getupvar st c).1.heap =
        releaseVal st.heap (readSlot st (st.current_regs + GETARG_A c))) ∧
    (∀ c, (op_tclass st c).1.heap =
      releaseVal st.heap (readSlot st (st.current_regs + GETARG_A c))) ∧
    (∀ c, (allocTake st).1 = true →
      (GETARG_A c < GETARG_B c ∨ GETARG_B c + GETARG_C c ≤ GETARG_A c) →
      (op_array st c).1.heap =
        releaseVal (st.heap ++
          [{ ref_count := 1, vm_id := st.vm_id,
             body := .harray ((List.range (GETARG_C c)).map
               (fun j => readSlot st (st.current_regs + GETARG_B c + j))) }])
          (readSlot st (st.current_regs + GETARG_A c))) ∧
    (∀ c, (allocTake st).1 = true →
      isRefTag (readSlot st (st.current_regs + GETARG_B c)).tt = false →
      isRefTag (readSlot st (st.current_regs + GETARG_B c + 1)).tt = false →
      (op_range st c).1.heap =
        releaseVal (st.heap ++
          [{ ref_count := 1, vm_id := st.vm_id,
             body := .hrange (readSlot st (st.current_regs + GETARG_B c))
               (readSlot st (st.current_regs + GETARG_B c + 1))
               (GETARG_C c) }])
          (readSlot st (st.current_regs + GETARG_A c))) := by
  refine ⟨?_, ?_, ?_, ?_, ?_, ?_, ?_, ?_, ?_⟩
  · intro c hB
    unfold op_move
    dsimp only
    rw [writeSlot_heap, dupAt_heap]
    by_cases heq : st.current_regs + GETARG_B c = st.current_regs + GETARG_A c
    · rw [heq, dupHeap_not_ref _ _ (by
        rw [readSlot_releaseAt_self]
        rfl), releaseAt_heap]
    · rw [dupHeap_not_ref _ _ (by
        rw [readSlot_releaseAt_ne st heq]
        exact hB), releaseAt_heap]
  · intro c
    rfl
  · intro c
    rfl
  · intro c hB
    unfold op_loadself
    dsimp only
    rw [writeSlot_heap, dupAt_heap]
    by_cases heq : st.current_regs + 0 = st.current_regs + GETARG_A c
    · rw [heq, dupHeap_not_ref _ _ (by
        rw [readSlot_releaseAt_self]
        rfl), releaseAt_heap]
    · rw [dupHeap_not_ref _ _ (by
        rw [readSlot_releaseAt_ne st heq]
        exact hB), releaseAt_heap]
  · intro c hg
    unfold op_getglobal
    dsimp only [internSym]
    rw [hg]
    simp only [assocGet, List.find?_nil, Option.map_none]
    rfl
  · intro c hU
    unfold op_getupvar
    dsimp only
    rw [writeSlot_heap, dupAt_heap]
    by_cases heq :
        (st.callinfo_tail.getD (GETARG_C c * 2 + 1) defCI).current_regs +
          GETARG_B c = st.current_regs + GETARG_A c
    · rw [heq, dupHeap_not_ref _ _ (by
        rw [readSlot_releaseAt_self]
        rfl), releaseAt_heap]
    · rw [dupHeap_not_ref _ _ (by
        rw [readSlot_releaseAt_ne st heq]
        exact hU), releaseAt_heap]
  · intro c
    rfl
  · intro c hal hna
    have hnew : mrbc_array_new st (GETARG_C c) =
        (some st.heap.length,
         { (allocTake st).2 with heap := st.heap ++
           [{ ref_count := 1, vm_id := (allocTake st).2.vm_id,
              body := .harray (List.replicate (GETARG_C c) zeroVal) }] }) := by
      unfold mrbc_array_new
      dsimp only
      rw [if_pos hal, allocTake_heap]
    unfold op_array
    dsimp only
    rw [hnew]
    dsimp only
    rw [writeSlot_heap, foldl_writeZero_release_heap st]
    · rw [setBody_append_self, allocTake_vm_id]
      exact congrArg (fun d => releaseVal (st.heap ++
          [{ ref_count := 1, vm_id := st.vm_id, body := HBody.harray d }])
          (readSlot st (st.current_regs + GETARG_A c)))
        (List.map_congr_left fun j _ =>
          readSlot_eq_of_regs (allocTake_regs st) _)
    · exact allocTake_regs st
    · intro j hj he
      omega
  · intro c hal h1 h2
    unfold op_range
    dsimp only
    have e1 : dupAt st (st.current_regs + GETARG_B c) = st := by
      unfold dupAt
      rw [dupHeap_not_ref _ _ h1]
    have e2 : dupAt st (st.current_regs + GETARG_B c + 1) = st := by
      unfold dupAt
      rw [dupHeap_not_ref _ _ h2]
    rw [e1, e2]
    have hnew : mrbc_range_new st
        (readSlot st (st.current_regs + GETARG_B c))
        (readSlot st (st.current_regs + GETARG_B c + 1)) (GETARG_C c) =
        (some st.heap.length,
         { (allocTake st).2 with heap := st.heap ++
           [{ ref_count := 1, vm_id := (allocTake st).2.vm_id,
              body := .hrange (readSlot st (st.current_regs + GETARG_B c))
                (readSlot st (st.current_regs + GETARG_B c + 1))
                (GETARG_C c) }] }) := by
      unfold mrbc_range_new
      dsimp only
      rw [if_pos hal, allocTake_heap]
    rw [hnew]
    dsimp only
    rw [writeSlot_heap, releaseAt_heap, allocTake_vm_id]
    exact congrArg (releaseVal _) (readSlot_eq_of_regs (allocTake_regs st) _)

/-- C3 counterexample: `OP_CLASS` stores the class value into `R(A)`
WITHOUT releasing the slot's prior content — on a state whose `R(1)` holds
the only reference to a live array cell, the handler overwrites the slot
and the cell's refcount stays 1 (the cell leaks, its body intact), refuting
the claim that every storing handler (CLASS included) releases first. -/
theorem claim_C3_counterexample :
    (readSlot c3ClsSt 1).tt = .array ∧
    refCountAt c3ClsSt.heap 0 = 1 ∧
    (readSlot (op_class c3ClsSt c3ClsCode).1 1).tt = .cls ∧
    refCountAt (op_class c3ClsSt c3ClsCode).1.heap 0 = 1 ∧
    ((op_class c3ClsSt c3ClsCode).1.heap.getD 0 defaultCell).body =
      .harray [] :=
  ⟨by decide, by decide, by decide, by decide, rfl⟩

/-- C3 witness: on the concrete state `c3St` (whose `R(1)` holds an array)
six of the handlers discharge their side conditions and exhibit the
release-first heap effect. -/
theorem claim_C3_witness :
    (op_move c3St (mkABC OP_MOVE 1 2 0)).1.heap =
      releaseVal c3St.heap (readSlot c3St 1) ∧
    (op_loadi c3St (mkAsBx OP_LOADI 1 7)).1.heap =
      releaseVal c3St.heap (readSlot c3St 1) ∧
    (op_getglobal c3St (mkABx OP_GETGLOBAL 1 1)).1.heap =
      releaseVal c3St.heap (readSlot c3St 1) ∧
    (op_getupvar c3St (mkABC OP_GETUPVAR 1 2 0)).1.heap =
      releaseVal c3St.heap (readSlot c3St 1) ∧
    (op_tclass c3St (mkABC OP_TCLASS 1 0 0)).1.heap =
      releaseVal c3St.heap (readSlot c3St 1) ∧
    (op_array c3St (mkABC OP_ARRAY 1 2 3)).1.heap =
      releaseVal (c3St.heap ++
        [{ ref_count := 1, vm_id := 1,
           body := .harray [readSlot c3St 2, readSlot c3St 3,
                            readSlot c3St 4] }])
        (readSlot c3St 1) := by
  have h := claim_C3_release c3St
  exact ⟨h.1 _ (by decide), h.2.2.1 _, h.2.2.2.2.1 _ rfl,
    h.2.2.2.2.2.1 _ (by decide), h.2.2.2.2.2.2.1 _,
    h.2.2.2.2.2.2.2.1 _ (by decide) (by decide)⟩

theorem writeSlot_symtab (s : VMState) (i : Nat) (v : MrbcValue) :
    (writeSlot s i v).symtab = s.symtab := rfl

theorem releaseAt_symtab (s : VMState) (i : Nat) :
    (releaseAt s i).symtab = s.symtab := rfl

theorem writeSlot_registry (s : VMState) (i : Nat) (v : MrbcValue) :
    (writeSlot s i v).registry = s.registry := rfl

theorem find_class_by_object_of_heap (s s' : VMState) (v : MrbcValue)
    (hh : s.heap = s'.heap) :
    find_class_by_object s v = find_class_by_object s' v := by
  unfold find_class_by_object
  rw [hh]

theorem find_method_of_heap_of_registry (s s' : VMState) (recv : MrbcValue)
    (sid : Int) (hh : s.heap = s'.heap) (hr : s.registry = s'.registry) :
    find_method s recv sid = find_method s' recv sid := by
  unfold find_method
  rw [hh, hr, find_class_by_object_of_heap s s' recv hh]

/-- C2: a `SEND` whose receiver's class chain has no method under the
symbol (`find_method = none`, the source resolver's walk) appends the
`No method. Class:X Method:Y` diagnostic to the output, returns 0 (the
dispatcher fetches the next instruction), keeps the preemption flag and
`pc`, and leaves `R(A)` unchanged.  The block slot `R(A+C+1)` is required
reference-free so its nil-ing (which `OP_SEND` always does) has no heap
effect. -/
theorem claim_C2_send (nt : NativeTable) (st : VMState) (code : Nat)
    (hop : GET_OPCODE code = OP_SEND)
    (hbl : isRefTag (readSlot st
      (st.current_regs + (GETARG_A code + GETARG_C code + 1))).tt = false)
    (hm : find_method st (readSlot st (st.current_regs + GETARG_A code))
      ((str_to_symid st.symtab
        (mrbc_get_irep_symbol st.pc_irep.syms (GETARG_B code))).1) = none) :
    (op_send nt st code).2 = 0 ∧
    readSlot (op_send nt st code).1 (st.current_regs + GETARG_A code) =
      readSlot st (st.current_regs + GETARG_A code) ∧
    (op_send nt st code).1.flag_preemption = st.flag_preemption ∧
    (op_send nt st code).1.pc = st.pc ∧
    (op_send nt st code).1.out = st.out ++
      ["No method. Class:" ++
         symid_to_str
           (str_to_symid st.symtab
             (mrbc_get_irep_symbol st.pc_irep.syms (GETARG_B code))).2
           ((st.registry.getD
             (find_class_by_object st
               (readSlot st (st.current_regs + GETARG_A code)))
             defClass).sym_id) ++
       " Method:" ++ mrbc_get_irep_symbol st.pc_irep.syms (GETARG_B code) ++
       "\x0a"] := by
  have hbidx : st.current_regs + GETARG_A code ≠
      st.current_regs + (GETARG_A code + GETARG_C code + 1) := by omega
  unfold op_send
  dsimp only
  rw [hop]
  rw [if_neg (fun h => absurd h.1 (by decide))]
  rw [if_pos rfl]
  dsimp only [internSym]
  simp only [writeSlot_symtab, releaseAt_symtab, writeSlot_pc_irep,
    releaseAt_pc_irep]
  rw [find_method_of_heap_of_registry _ st]
  · rw [hm]
    dsimp only
    rw [find_class_by_object_of_heap _ st]
    · refine ⟨rfl, ?_, rfl, rfl, rfl⟩
      simp only [readSlot, emit, writeSlot, releaseAt]
      rw [getD_set_ne _ _ _ hbidx, getD_set_ne _ _ _ hbidx]
    · dsimp only
      rw [writeSlot_heap, releaseAt_heap, releaseVal_not_ref _ _ hbl]
  · dsimp only
    rw [writeSlot_heap, releaseAt_heap, releaseVal_not_ref _ _ hbl]
  · rfl

/-- C2 witness: `SEND R1, Syms(0)="nope", 0` on an Object instance with no
methods — the diagnostic is printed, 0 is returned and `R(1)` is intact. -/
theorem claim_C2_witness :
    (op_send trivialNatives c2St c2Code).2 = 0 ∧
    readSlot (op_send trivialNatives c2St c2Code).1 1 = readSlot c2St 1 ∧
    (op_send trivialNatives c2St c2Code).1.flag_preemption = false ∧
    (op_send trivialNatives c2St c2Code).1.out =
      ["No method. Class:Object Method:nope\x0a"] := by
  have h := claim_C2_send trivialNatives c2St c2Code rfl (by decide) rfl
  exact ⟨h.1, h.2.1, h.2.2.1, h.2.2.2.2⟩

theorem mrbc_push_callinfo_heap (s : VMState) (m : Int) (n : Nat) :
    (mrbc_push_callinfo s m n).heap = s.heap := by
  unfold mrbc_push_callinfo
  dsimp only
  by_cases h : (allocTake s).1 = true
  · rw [if_pos h]
    exact allocTake_heap s
  · rw [if_neg h]
    exact allocTake_heap s

theorem setBody_getD_ne (heap : List HeapCell) {h j : Nat} (b : HBody)
    (hne : j ≠ h) :
    (setBody heap h b).getD j defaultCell = heap.getD j defaultCell := by
  unfold setBody
  cases hc : heap.get? h with
  | none => rfl
  | some c => exact getD_set_ne _ _ _ hne

theorem setBody_getD_body (heap : List HeapCell) {h : Nat} (b : HBody)
    (hlt : h < heap.length) :
    ((setBody heap h b).getD h defaultCell).body = b := by
  cases hc : heap.get? h with
  | none =>
    have hge := List.get?_eq_none.mp hc
    omega
  | some c =>
    rw [setBody_getD_self heap b c hc]

theorem foldl_releaseOff_body_inst (l : List Nat) (off : Nat) (s : VMState)
    (k c : Nat) (iv : List (Int × MrbcValue))
    (hh : ((l.foldl (fun s j => releaseAt s (off + j)) s).heap.getD k
      defaultCell).body = HBody.hinstance c iv) :
    (s.heap.getD k defaultCell).body = HBody.hinstance c iv := by
  induction l generalizing s with
  | nil => exact hh
  | cons a t ih =>
    rw [List.foldl_cons] at hh
    have h2 := ih (releaseAt s (off + a)) hh
    rw [releaseAt_heap] at h2
    exact releaseVal_body_inst _ _ h2

/-- `op_return` never fabricates an instance body: whatever the return path
does to the heap (the `mrbc_release` of `regs[0]`, the callee-window
release loop), a cell that holds `instance-of c` AFTER it already held
exactly that before — releases only decrement, free, or cascade. -/
theorem op_return_body_inst (st2 : VMState) (c2 : Nat) (k X : Nat)
    (iv2 : List (Int × MrbcValue))
    (hh : (((op_return st2 c2).1.heap.getD k defaultCell).body =
      HBody.hinstance X iv2)) :
    (st2.heap.getD k defaultCell).body = HBody.hinstance X iv2 := by
  unfold op_return at hh
  dsimp only at hh
  by_cases hb : GETARG_B c2 = OP_R_NORMAL
  · rw [if_pos hb] at hh
    dsimp only at hh
    unfold releaseLoop at hh
    have h2 := foldl_releaseOff_body_inst _ _ _ _ _ _ hh
    dsimp only at h2
    rw [writeSlot_heap, writeSlot_heap, releaseAt_heap] at h2
    exact releaseVal_body_inst _ _ h2
  · rw [if_neg hb] at hh
    by_cases hbr : GETARG_B c2 = OP_R_BREAK
    · rw [if_pos hbr] at hh
      dsimp only at hh
      rw [writeSlot_heap, writeSlot_heap, releaseAt_heap] at hh
      exact releaseVal_body_inst _ _ hh
    · rw [if_neg hbr] at hh
      dsimp only at hh
      rw [writeSlot_heap, writeSlot_heap, releaseAt_heap] at hh
      exact releaseVal_body_inst _ _ hh

/-- C10: a `SUPER` that resolves the current method symbol on an ancestor
class `S` of the receiver instance's class permanently overwrites the
instance cell's class field with `S` before invoking the method
(`regs[ra].instance->cls = cls;`): after the handler the receiver's cell
reads `instance-of S` with `S` different from the instantiating class
(granted an acyclic superclass chain), and the return path never restores
it — `op_return` cannot turn any cell's body INTO `instance-of c` unless it
already was exactly that. -/
theorem claim_C10_super (nt : NativeTable) (st : VMState) (code : Nat)
    (S ph origCls fid : Nat) (mirep : IRep) (psid : Int)
    (ivars : List (Int × MrbcValue))
    (ha : 1 ≤ GETARG_A code)
    (hlt : st.current_regs + GETARG_A code < st.regs.length)
    (hpr : isRefTag (readSlot st (st.current_regs + GETARG_A code)).tt = false)
    (hcell : (st.heap.getD (readSlot st (st.current_regs + 0)).handle
        defaultCell).body = .hinstance origCls ivars)
    (hfound : findMethodRec st.heap st.registry (st.registry.length + 1)
        (st.registry.getD origCls defClass).super
        (st.callinfo_tail.headD defCI).mid = some (S, ph))
    (hproc : (st.heap.getD ph defaultCell).body = .hproc false fid mirep psid)
    (hacyc : origCls ∉ superChain st.registry (st.registry.length + 1)
        (st.registry.getD origCls defClass).super) :
    (op_super nt st code).2 = 0 ∧
    ((op_super nt st code).1.heap.getD
        (readSlot st (st.current_regs + 0)).handle defaultCell).body =
      .hinstance S ivars ∧
    S ≠ origCls ∧
    (∀ (st2 : VMState) (c2 : Nat) (k X : Nat)
       (iv2 : List (Int × MrbcValue)),
      (((op_return st2 c2).1.heap.getD k defaultCell).body =
        HBody.hinstance X iv2) →
      (st2.heap.getD k defaultCell).body = HBody.hinstance X iv2) := by
  have hra0 : st.current_regs + 0 ≠ st.current_regs + GETARG_A code := by
    omega
  have hhlt : (readSlot st (st.current_regs + 0)).handle < st.heap.length := by
    by_contra hno
    rw [getD_of_length_le _ _ (Nat.le_of_not_lt hno)] at hcell
    cases hcell
  have hne2 : ph ≠ (readSlot st (st.current_regs + 0)).handle := by
    intro he
    rw [he, hcell] at hproc
    cases hproc
  have e1 : releaseAt st (st.current_regs + GETARG_A code) =
      writeSlot st (st.current_regs + GETARG_A code)
        { readSlot st (st.current_regs + GETARG_A code) with
          tt := MTag.empty } := by
    unfold releaseAt
    dsimp only
    rw [releaseVal_not_ref _ _ hpr]
  have e2 : dupAt (writeSlot st (st.current_regs + GETARG_A code)
        { readSlot st (st.current_regs + GETARG_A code) with
          tt := MTag.empty }) (st.current_regs + 0) =
      { writeSlot st (st.current_regs + GETARG_A code)
          { readSlot st (st.current_regs + GETARG_A code) with
            tt := MTag.empty } with
        heap := dupHeap st.heap (readSlot st (st.current_regs + 0)) } := by
    unfold dupAt
    rw [readSlot_writeSlot_ne _ _ hra0, writeSlot_heap]
  have e3 : readSlot
      ({ writeSlot st (st.current_regs + GETARG_A code)
           { readSlot st (st.current_regs + GETARG_A code) with
             tt := MTag.empty } with
         heap := dupHeap st.heap (readSlot st (st.current_regs + 0)) } :
        VMState) (st.current_regs + 0) = readSlot st (st.current_regs + 0) := by
    have h1 : ({ writeSlot st (st.current_regs + GETARG_A code)
           { readSlot st (st.current_regs + GETARG_A code) with
             tt := MTag.empty } with
         heap := dupHeap st.heap (readSlot st (st.current_regs + 0)) } :
        VMState).regs =
        (writeSlot st (st.current_regs + GETARG_A code)
           { readSlot st (st.current_regs + GETARG_A code) with
             tt := MTag.empty }).regs := rfl
    rw [readSlot_eq_of_regs h1, readSlot_writeSlot_ne _ _ hra0]
  unfold op_super
  dsimp only
  rw [e1, e2, e3]
  rw [readSlot_writeSlot_self _ _ (by
    show st.current_regs + GETARG_A code <
      (st.regs.set (st.current_regs + GETARG_A code)
        { readSlot st (st.current_regs + GETARG_A code) with
          tt := MTag.empty }).length
    rw [List.length_set]
    exact hlt)]
  rw [writeSlot_heap]
  dsimp only
  simp only [writeSlot_callinfo, writeSlot_registry]
  rw [dupHeap_body, hcell]
  dsimp only
  rw [findMethodRec_dupHeap, hfound]
  dsimp only
  rw [show setInstanceCls (dupHeap st.heap (readSlot st (st.current_regs + 0)))
      (readSlot st (st.current_regs + 0)).handle S =
    setBody (dupHeap st.heap (readSlot st (st.current_regs + 0)))
      (readSlot st (st.current_regs + 0)).handle
      (HBody.hinstance S ivars) from by
    unfold setInstanceCls
    rw [dupHeap_body, hcell]]
  rw [setBody_getD_ne _ _ hne2, dupHeap_body, hproc]
  dsimp only
  rw [if_neg Bool.false_ne_true]
  refine ⟨rfl, ?_, ?_, ?_⟩
  · dsimp only
    rw [mrbc_push_callinfo_heap]
    dsimp only
    rw [setBody_getD_body]
    rw [dupHeap_length]
    exact hhlt
  · intro he
    apply hacyc
    have hmem := findMethodRec_mem_chain st.heap st.registry _ _ _ S ph hfound
    rw [he] at hmem
    exact hmem
  · intro st2 c2 k X iv2 hh
    exact op_return_body_inst st2 c2 k X iv2 hh

/-- C10 witness: `SUPER R1` on an instance of `Sub` (class 2) whose method
symbol resolves on `Sup` (class 1) — the instance cell afterwards reads
`instance-of 1`, a class different from the one it was created with. -/
theorem claim_C10_witness :
    (op_super trivialNatives c10St c10Code).2 = 0 ∧
    ((op_super trivialNatives c10St c10Code).1.heap.getD 0
      defaultCell).body = .hinstance 1 [] ∧
    (1 : Nat) ≠ 2 := by
  have h := claim_C10_super trivialNatives c10St c10Code 1 1 2 3
    (.mk 2 0 [] [] [] []) 4 [] (by decide) (by decide) (by decide) rfl rfl rfl
    (by decide)
  exact ⟨h.1, h.2.1, h.2.2.1⟩

end MrubyC
